import Mathlib

/-!
# Verification of `scripts/appdaemon/backfill_state.py` (gridscraper)

A shallow embedding of the three request handlers of `BackfillState`:
`backfill_state`, `generate_statistics` and `generate_cost_statistics`.

Modelling conventions:
* The SQLite database file is a record `DB` of lists of rows.  Each handler
  is a pure function `params → DB → DB × Payload × Nat` returning the
  database after the call, the response payload and the HTTP status code.
* The handlers stage their writes on local copies of the tables and install
  them into the `DB` only at the final `conn.commit()`; every early-return
  path closes the connection without committing, which SQLite rolls back,
  so those paths return the original `DB` unchanged.
* Readings are stored as the strings the handler receives; `CAST(s AS REAL)`
  and Python's `float(s)` are modelled by an explicit decimal parser over `ℚ`
  (exact rational arithmetic in place of IEEE doubles).
* Timestamps are epoch seconds as `Int`; the ISO-8601 string-to-`datetime`
  conversion of `backfill_state`, injective on valid inputs, is abstracted.
-/

namespace Gridscraper

set_option maxRecDepth 3000

/-! ## Numeric strings: Python `float()` and SQLite `CAST(· AS REAL)` -/

/-- Numeric value of a decimal digit character. -/
def digitVal (c : Char) : Nat := c.toNat - 48

/-- Consume a maximal run of decimal digits; returns the accumulated value,
the number of digits consumed and the unconsumed rest. -/
def readDigits : List Char → Nat → Nat → Nat × Nat × List Char
  | c :: cs, acc, n =>
    if c.isDigit then readDigits cs (10 * acc + digitVal c) (n + 1) else (acc, n, c :: cs)
  | [], acc, n => (acc, n, [])

/-- Consume an optional exponent part `e[+|-]digits`; a malformed exponent
consumes nothing (as in SQLite's longest-numeric-prefix scan). -/
def readExp (cs : List Char) : Int × List Char :=
  match cs with
  | c :: cs' =>
    if c = 'e' ∨ c = 'E' then
      let sr : Int × List Char :=
        match cs' with
        | '+' :: r => (1, r)
        | '-' :: r => (-1, r)
        | r => (1, r)
      let (v, n, rest) := readDigits sr.2 0 0
      if n = 0 then (0, c :: cs') else (sr.1 * (v : Int), rest)
    else (0, c :: cs')
  | [] => (0, [])

/-- Parse a maximal decimal literal at the front of the character list:
optional sign, integer digits, optional fraction, optional exponent.
`none` when not a single digit is present. -/
def readNum (cs : List Char) : Option (ℚ × List Char) :=
  let sr : ℚ × List Char :=
    match cs with
    | '+' :: r => (1, r)
    | '-' :: r => (-1, r)
    | r => (1, r)
  let (ip, ni, cs2) := readDigits sr.2 0 0
  let frac : Nat × Nat × List Char :=
    match cs2 with
    | '.' :: r => readDigits r 0 0
    | r => (0, 0, r)
  let (fp, nf, cs3) := frac
  if ni + nf = 0 then none
  else
    let mant : ℚ := (ip : ℚ) + (fp : ℚ) / ((10 : ℚ) ^ nf)
    let (e, cs4) := readExp cs3
    some (sr.1 * mant * (10 : ℚ) ^ e, cs4)

/-- The value SQLite gives a string under `CAST(s AS REAL)`: skip leading
blanks, read the longest numeric literal at the front, and `0` when there is
none. -/
def castReal (s : String) : ℚ :=
  match readNum (s.data.dropWhile (· = ' ')) with
  | some (q, _) => q
  | none => 0

/-- Python's `float(s)`: surrounding blanks allowed, the rest of the string
must be exactly one numeric literal; `none` models the `ValueError`. -/
def pythonFloat (s : String) : Option ℚ :=
  match readNum (s.data.dropWhile (· = ' ')) with
  | some (q, rest) => if rest.dropWhile (· = ' ') = [] then some q else none
  | none => none

/-! ## Data model -/

/-- A row of the `states` table (only the columns the handlers touch). -/
structure StateRow where
  metadata_id : Nat
  state : String
  last_changed_ts : Int
  last_updated_ts : Int
  attributes : String
  deriving Repr, DecidableEq

/-- A row of the `statistics` / `statistics_short_term` tables (only the
columns the handlers touch); `state` and `sum` are nullable REALs. -/
structure StatRow where
  metadata_id : Nat
  start_ts : Int
  created_ts : Int
  state : Option ℚ
  sum : Option ℚ
  deriving Repr, DecidableEq

/-- The relational store `/homeassistant/home-assistant_v2.db`.
`next_states_meta_id` models the AUTOINCREMENT id delivered by
`cursor.lastrowid` on an insert into `states_meta`. -/
structure DB where
  states_meta : List (Nat × String)
  next_states_meta_id : Nat
  statistics_meta : List (Nat × String)
  states : List StateRow
  statistics : List StatRow
  statistics_short_term : List StatRow
  deriving Repr, DecidableEq

/-- Response payloads of the three handlers (the JSON dictionaries they
return). -/
inductive Payload where
  | error (msg : String)
  | success
  | skipped (reason : String)
  | statsSuccess (inserted updated deleted total_hours : Nat) (final_sum : ℚ)
  | costSuccess (inserted updated total_hours : Nat) (total_cost : ℚ) (rate_used : ℚ)
  deriving Repr, DecidableEq

/-- A handler call returns the database after the call together with the
`(payload, status-code)` pair. -/
abbrev HResult := DB × Payload × Nat

/-- Python truthiness of an optional string request parameter: absent or
empty is falsy. -/
def strFalsy : Option String → Bool
  | none => true
  | some s => s == ""

/-! ## `backfill_state` -/

/-- The `backfill_state` handler: resolve or create the `states_meta` row,
skip when a state with the same `(metadata_id, last_changed_ts)` already
exists (closing without commit, so a staged metadata insert is rolled back),
otherwise insert the new state row and commit. -/
def backfill_state (entity_id state : Option String)
    (last_changed last_updated : Option Int) (db : DB) : HResult :=
  match entity_id, state, last_changed with
  | some e, some st, some lc =>
    if e = "" ∨ st = "" then (db, .error "Missing required parameters", 400)
    else
      let lu := last_updated.getD lc
      let found := db.states_meta.find? (fun p => p.2 == e)
      let metadata_id := match found with
        | some p => p.1
        | none => db.next_states_meta_id
      if db.states.any (fun r => r.metadata_id == metadata_id && r.last_changed_ts == lc) then
        (db, .skipped "duplicate", 200)
      else
        let row : StateRow :=
          { metadata_id := metadata_id, state := st, last_changed_ts := lc,
            last_updated_ts := lu,
            attributes := "\x7b\"unit_of_measurement\": \"kWh\"\x7d" }
        ({ db with
            states_meta :=
              if found.isNone then db.states_meta ++ [(metadata_id, e)] else db.states_meta,
            next_states_meta_id :=
              if found.isNone then db.next_states_meta_id + 1 else db.next_states_meta_id,
            states := db.states ++ [row] },
          .success, 200)
  | _, _, _ => (db, .error "Missing required parameters", 400)

/-! ## `generate_statistics` -/

/-- The WHERE clause of the states SELECT: right entity, not one of the
sentinel strings, and positive under `CAST(state AS REAL)`. -/
def validState (mid : Nat) (r : StateRow) : Bool :=
  r.metadata_id == mid &&
  !(["unknown", "unavailable", "0.0", "0"].contains r.state) &&
  decide (0 < castReal r.state)

/-- `ORDER BY last_changed_ts` (stable sort). -/
def sortStates (l : List StateRow) : List StateRow :=
  l.insertionSort (fun a b => a.last_changed_ts ≤ b.last_changed_ts)

/-- The states loaded by `generate_statistics` for one entity. -/
def filteredStates (db : DB) (mid : Nat) : List StateRow :=
  sortStates (db.states.filter (validState mid))

/-- `hour_ts = int(ts // 3600 * 3600)` (Python floor division). -/
def hourOf (ts : Int) : Int := ts.fdiv 3600 * 3600

/-- Python dict insert-or-overwrite keeping key insertion order. -/
def dictUpsert (d : List (Int × ℚ)) (k : Int) (v : ℚ) : List (Int × ℚ) :=
  if d.any (fun p => p.1 == k) then d.map (fun p => if p.1 = k then (k, v) else p)
  else d ++ [(k, v)]

/-- The grouping loop filling `hourly_data`: walk states in timestamp order,
overwriting the bucket with the latest value; `float(state)` may raise
(`none`), which the handler turns into a 500 response. -/
def buildHourly : List StateRow → List (Int × ℚ) → Option (List (Int × ℚ))
  | [], d => some d
  | r :: rs, d =>
    match pythonFloat r.state with
    | none => none
    | some v => buildHourly rs (dictUpsert d (hourOf r.last_changed_ts) v)

/-- Value of `hourly_data[k]` (defaulting to `0`, used only on present keys). -/
def lookupD (d : List (Int × ℚ)) (k : Int) : ℚ :=
  match d.find? (fun p => p.1 == k) with
  | some p => p.2
  | none => 0

/-- `sorted(hourly_data.keys())`. -/
def hoursOf (d : List (Int × ℚ)) : List Int :=
  (d.map Prod.fst).insertionSort (· ≤ ·)

/-- Does a statistics row have the given `(metadata_id, start_ts)` key? -/
def keyMatch (r : StatRow) (sid : Nat) (ts : Int) : Bool :=
  r.metadata_id == sid && r.start_ts == ts

/-- `sorted_hours[-1]` (the last element; `0` for the empty list, which the
handlers never reach). -/
def lastTs : List Int → Int
  | [] => 0
  | [a] => a
  | _ :: b :: l => lastTs (b :: l)

/-- `SELECT id FROM statistics_meta WHERE statistic_id = ?` followed by
`row[0]`. -/
def statsMetaId (db : DB) (e : String) : Option Nat :=
  (db.statistics_meta.find? (fun p => p.2 == e)).map Prod.fst

/-- `SELECT metadata_id FROM states_meta WHERE entity_id = ?` followed by
`row[0]`. -/
def statesMetaId (db : DB) (e : String) : Option Nat :=
  (db.states_meta.find? (fun p => p.2 == e)).map Prod.fst

/-- The orphan-pruning DELETE predicate: same series, bucket inside
`[earliest, latest]`, but no corresponding source bucket. -/
def isOrphan (sid : Nat) (earliest latest : Int) (hours : List Int) (r : StatRow) : Bool :=
  r.metadata_id == sid && decide (earliest ≤ r.start_ts) && decide (r.start_ts ≤ latest) &&
  !(hours.contains r.start_ts)

/-- The per-bucket upsert loop of `generate_statistics` (it is also the loop
of `generate_cost_statistics`, which walks `(start_ts, value)` pairs): walk
buckets in ascending order keeping a running cumulative sum, UPDATE the row
when the `(metadata_id, start_ts)` key exists, INSERT it otherwise.
Arguments: series id, bucket map, buckets to process, staged table,
inserted / updated counters, running sum. -/
def upsertHours (sid : Nat) (d : List (Int × ℚ)) :
    List Int → List StatRow → Nat → Nat → ℚ → List StatRow × Nat × Nat × ℚ
  | [], tbl, ins, upd, cum => (tbl, ins, upd, cum)
  | h :: hs, tbl, ins, upd, cum =>
    let v := lookupD d h
    let cum' := cum + v
    if tbl.any (fun r => keyMatch r sid h) then
      upsertHours sid d hs
        (tbl.map (fun r =>
          if keyMatch r sid h then { r with state := some v, sum := some cum' } else r))
        ins (upd + 1) cum'
    else
      upsertHours sid d hs
        (tbl ++ [{ metadata_id := sid, start_ts := h, created_ts := h,
                   state := some v, sum := some cum' }])
        (ins + 1) upd cum'

/-- The staged `statistics` table after the optional bulk DELETE of the
target series (within the still-uncommitted transaction). -/
def stagedStats (sid : Nat) (clear_existing : Bool) (db : DB) : List StatRow :=
  if clear_existing then db.statistics.filter (fun r => !(r.metadata_id == sid))
  else db.statistics

/-- The staged `statistics_short_term` table after the optional bulk
DELETE of the target series. -/
def stagedShort (sid : Nat) (clear_existing : Bool) (db : DB) : List StatRow :=
  if clear_existing then db.statistics_short_term.filter (fun r => !(r.metadata_id == sid))
  else db.statistics_short_term

/-- The staged statistics table after the orphan-pruning DELETE (skipped
when `clear_existing` is set), paired with `cursor.rowcount`. -/
def gsPruned (sid : Nat) (clear_existing : Bool) (db : DB) (earliest : Int)
    (hours : List Int) : List StatRow × Nat :=
  if clear_existing then (stagedStats sid clear_existing db, 0)
  else
    let pruned := (stagedStats sid clear_existing db).filter
      (fun r => !(isOrphan sid earliest (lastTs hours) hours r))
    (pruned, (stagedStats sid clear_existing db).length - pruned.length)

/-- The body of `generate_statistics` after both metadata ids are resolved:
optional bulk clear, load and bucket the states, orphan pruning, upsert walk,
commit.  Every early return hands back the unmodified database (close without
commit). -/
def gsCore (sid mid : Nat) (clear_existing : Bool) (db : DB) : HResult :=
  let sts := filteredStates db mid
  if sts = [] then (db, .error "No valid states found", 404)
  else
    match buildHourly sts [] with
    | none => (db, .error "could not convert string to float", 500)
    | some d =>
      match hoursOf d with
      | [] => (db, .error "No hourly data found", 404)
      | h0 :: hrest =>
        let hours := h0 :: hrest
        let pr := gsPruned sid clear_existing db h0 hours
        let out := upsertHours sid d hours pr.1 0 0 0
        ({ db with statistics := out.1,
                   statistics_short_term := stagedShort sid clear_existing db },
          .statsSuccess out.2.1 out.2.2.1 pr.2 d.length out.2.2.2, 200)

/-- The `generate_statistics` handler: parameter check, metadata resolution,
then `gsCore`. -/
def generate_statistics (entity_id : Option String) (clear_existing : Bool)
    (db : DB) : HResult :=
  if strFalsy entity_id then (db, .error "entity_id required", 400)
  else
    let e := entity_id.getD ""
    match statsMetaId db e with
    | none => (db, .error "No statistics metadata found", 404)
    | some sid =>
      match statesMetaId db e with
      | none => (db, .error "No states found", 404)
      | some mid => gsCore sid mid clear_existing db

/-! ## `generate_cost_statistics` -/

/-- The optional `rate` request parameter as it may arrive in the JSON
payload: absent/null, a number, or a string. -/
inductive RateParam where
  | null
  | num (q : ℚ)
  | str (s : String)
  deriving Repr, DecidableEq

/-- Python truthiness of the `rate` parameter (`if not rate:`): `None`, the
number `0` and the empty string are falsy. -/
def rateFalsy : RateParam → Bool
  | .null => true
  | .num q => q == 0
  | .str s => s == ""

/-- The rows of the rate-inference JOIN: pairs of an energy row and a cost
row sharing `start_ts`, both states non-NULL and positive, listed as
`(start_ts, energy state, cost state)`. -/
def ratePairs (tbl : List StatRow) (eid cid : Nat) : List (Int × ℚ × ℚ) :=
  (tbl.map (fun e =>
    tbl.filterMap (fun c =>
      match e.state, c.state with
      | some ev, some cv =>
        if e.metadata_id = eid ∧ c.metadata_id = cid ∧ e.start_ts = c.start_ts
            ∧ 0 < ev ∧ 0 < cv then
          some (e.start_ts, ev, cv)
        else none
      | _, _ => none))).flatten

/-- `ORDER BY e.start_ts DESC LIMIT 1`: a candidate with the largest
`start_ts` (ties broken by list position, which SQLite leaves unspecified). -/
def bestPair : List (Int × ℚ × ℚ) → Option (Int × ℚ × ℚ)
  | [] => none
  | p :: ps =>
    match bestPair ps with
    | none => some p
    | some q => some (if p.1 < q.1 then q else p)

/-- `ORDER BY start_ts` over statistics rows (stable sort). -/
def sortStats (l : List StatRow) : List StatRow :=
  l.insertionSort (fun a b => a.start_ts ≤ b.start_ts)

/-- The energy-series rows `SELECT start_ts, state ... ORDER BY start_ts`,
read from the staged table. -/
def energyRows (tbl : List StatRow) (eid : Nat) : List (Int × Option ℚ) :=
  (sortStats (tbl.filter (fun r => r.metadata_id == eid))).map
    (fun r => (r.start_ts, r.state))

/-- The cost upsert walk: skip NULL energy values, cost is energy × rate,
keep a running cumulative cost, UPDATE or INSERT the cost row per bucket.
Arguments: cost series id, rate, energy rows, staged table, inserted /
updated counters, running cost. -/
def costLoop (cid : Nat) (rate : ℚ) :
    List (Int × Option ℚ) → List StatRow → Nat → Nat → ℚ → List StatRow × Nat × Nat × ℚ
  | [], tbl, ins, upd, cum => (tbl, ins, upd, cum)
  | (_, none) :: rest, tbl, ins, upd, cum => costLoop cid rate rest tbl ins upd cum
  | (ts, some ekwh) :: rest, tbl, ins, upd, cum =>
    let hc := ekwh * rate
    let cum' := cum + hc
    if tbl.any (fun r => keyMatch r cid ts) then
      costLoop cid rate rest
        (tbl.map (fun r =>
          if keyMatch r cid ts then { r with state := some hc, sum := some cum' } else r))
        ins (upd + 1) cum'
    else
      costLoop cid rate rest
        (tbl ++ [{ metadata_id := cid, start_ts := ts, created_ts := ts,
                   state := some hc, sum := some cum' }])
        (ins + 1) upd cum'

/-- Rate determination: when the parameter is falsy, auto-infer from the
most recent bucket present in both series (over the staged table) and fail
with 400 when none exists; otherwise parse the supplied parameter, failing
with 400 on a non-numeric string. -/
def rateOf (eid cid : Nat) (rate : RateParam) (stats0 : List StatRow) :
    Except (Payload × Nat) ℚ :=
  if rateFalsy rate then
    match bestPair (ratePairs stats0 eid cid) with
    | some p => .ok (p.2.2 / p.2.1)
    | none => .error (.error "Could not auto-calculate rate: no existing cost statistics found. Please provide rate parameter.", 400)
  else
    match rate with
    | .num q => .ok q
    | .str s =>
      match pythonFloat s with
      | some q => .ok q
      | none => .error (.error "rate must be a number", 400)
    | .null => .error (.error "rate must be a number", 400)

/-- The body of `generate_cost_statistics` after both series ids are
resolved: optional bulk clear of the cost series, rate determination,
load of the energy rows, orphan pruning of the cost series, cost walk,
commit.  Every early return hands back the unmodified database (close
without commit). -/
def gcsCore (eid cid : Nat) (rate : RateParam) (clear_existing : Bool) (db : DB) : HResult :=
  let stats0 := stagedStats cid clear_existing db
  match rateOf eid cid rate stats0 with
  | .error pc => (db, pc.1, pc.2)
  | .ok rateV =>
    let estats := energyRows stats0 eid
    match estats with
    | [] => (db, .error "No energy statistics found", 404)
    | (t0, _) :: _ =>
      let etss := estats.map Prod.fst
      let pr := gsPruned cid clear_existing db t0 etss
      let out := costLoop cid rateV estats pr.1 0 0 0
      ({ db with statistics := out.1,
                 statistics_short_term := stagedShort cid clear_existing db },
        .costSuccess out.2.1 out.2.2.1 estats.length out.2.2.2 rateV, 200)

/-- The `generate_cost_statistics` handler: parameter checks, metadata
resolution for both entities, then `gcsCore`. -/
def generate_cost_statistics (energy_entity_id cost_entity_id : Option String)
    (rate : RateParam) (clear_existing : Bool) (db : DB) : HResult :=
  if strFalsy energy_entity_id || strFalsy cost_entity_id then
    (db, .error "energy_entity_id and cost_entity_id required", 400)
  else
    let ee := energy_entity_id.getD ""
    let ce := cost_entity_id.getD ""
    match statsMetaId db ee with
    | none => (db, .error "No statistics metadata found for energy entity", 404)
    | some eid =>
      match statsMetaId db ce with
      | none => (db, .error "No statistics metadata found for cost entity", 404)
      | some cid => gcsCore eid cid rate clear_existing db

/-! ## Concrete stores used as witnesses -/

/-- A small concrete store: three readings for one entity — the worked
example of the specification (`{t=0: "1.5", t=1800: "2.0", t=3700: "3.0"}`). -/
def egDB : DB :=
  { states_meta := [(1, "sensor.energy")], next_states_meta_id := 2,
    statistics_meta := [(7, "sensor.energy")],
    states :=
      [ { metadata_id := 1, state := "1.5", last_changed_ts := 0,
          last_updated_ts := 0, attributes := "" },
        { metadata_id := 1, state := "2.0", last_changed_ts := 1800,
          last_updated_ts := 1800, attributes := "" },
        { metadata_id := 1, state := "3.0", last_changed_ts := 3700,
          last_updated_ts := 3700, attributes := "" } ],
    statistics := [], statistics_short_term := [] }

/-- The store `egDB` after one aggregation run. -/
def egOut : DB :=
  { egDB with statistics :=
      [ { metadata_id := 7, start_ts := 0, created_ts := 0,
          state := some 2, sum := some 2 },
        { metadata_id := 7, start_ts := 3600, created_ts := 3600,
          state := some 3, sum := some 5 } ] }

/-- `egDB` with pre-existing statistics rows: a stale in-range row of the
target series at 1800, an out-of-range row at 7200, and a row of another
series. -/
def c7DB : DB :=
  { egDB with statistics :=
      [ { metadata_id := 7, start_ts := 1800, created_ts := 1800,
          state := some 9, sum := some 9 },
        { metadata_id := 7, start_ts := 7200, created_ts := 7200,
          state := some 4, sum := some 4 },
        { metadata_id := 9, start_ts := 0, created_ts := 0,
          state := some 1, sum := some 1 } ] }

/-- The store `c7DB` after one aggregation run: the stale row at 1800 is
pruned, the out-of-range and other-series rows survive, the two bucket rows
are inserted. -/
def c7Out : DB :=
  { egDB with statistics :=
      [ { metadata_id := 7, start_ts := 7200, created_ts := 7200,
          state := some 4, sum := some 4 },
        { metadata_id := 9, start_ts := 0, created_ts := 0,
          state := some 1, sum := some 1 },
        { metadata_id := 7, start_ts := 0, created_ts := 0,
          state := some 2, sum := some 2 },
        { metadata_id := 7, start_ts := 3600, created_ts := 3600,
          state := some 3, sum := some 5 } ] }

/-- A store with an energy statistics series (id 7) of two valued buckets
and one NULL bucket, and a cost series (id 9) with one prior bucket row
(energy 2 at bucket 0 costing 1, giving an inferable rate of 1/2). -/
def cDB : DB :=
  { states_meta := [], next_states_meta_id := 1,
    statistics_meta := [(7, "sensor.energy"), (9, "sensor.cost")],
    states := [],
    statistics :=
      [ { metadata_id := 7, start_ts := 0, created_ts := 0,
          state := some 2, sum := some 2 },
        { metadata_id := 7, start_ts := 3600, created_ts := 3600,
          state := some 3, sum := some 5 },
        { metadata_id := 7, start_ts := 7200, created_ts := 7200,
          state := none, sum := some 5 },
        { metadata_id := 9, start_ts := 0, created_ts := 0,
          state := some 1, sum := some 1 } ],
    statistics_short_term := [] }

/-- `cDB` after deriving costs with the explicit rate 1/4. -/
def cOutQ : DB :=
  { cDB with statistics :=
      [ { metadata_id := 7, start_ts := 0, created_ts := 0,
          state := some 2, sum := some 2 },
        { metadata_id := 7, start_ts := 3600, created_ts := 3600,
          state := some 3, sum := some 5 },
        { metadata_id := 7, start_ts := 7200, created_ts := 7200,
          state := none, sum := some 5 },
        { metadata_id := 9, start_ts := 0, created_ts := 0,
          state := some (1 / 2), sum := some (1 / 2) },
        { metadata_id := 9, start_ts := 3600, created_ts := 3600,
          state := some (3 / 4), sum := some (5 / 4) } ] }

/-- `cDB` after deriving costs with no supplied rate (inferred rate 1/2). -/
def cOutN : DB :=
  { cDB with statistics :=
      [ { metadata_id := 7, start_ts := 0, created_ts := 0,
          state := some 2, sum := some 2 },
        { metadata_id := 7, start_ts := 3600, created_ts := 3600,
          state := some 3, sum := some 5 },
        { metadata_id := 7, start_ts := 7200, created_ts := 7200,
          state := none, sum := some 5 },
        { metadata_id := 9, start_ts := 0, created_ts := 0,
          state := some 1, sum := some 1 },
        { metadata_id := 9, start_ts := 3600, created_ts := 3600,
          state := some (3 / 2), sum := some (5 / 2) } ] }

/-- `cDB` without any cost-series row: the rate cannot be inferred. -/
def c6DB : DB :=
  { cDB with statistics :=
      [ { metadata_id := 7, start_ts := 0, created_ts := 0,
          state := some 2, sum := some 2 },
        { metadata_id := 7, start_ts := 3600, created_ts := 3600,
          state := some 3, sum := some 5 } ] }

/-- `c7DB` after an aggregation run with `clear_existing`: every prior row of
series 7 is removed (including the out-of-range one at 7200), the other
series survives, and the two recomputed bucket rows are appended. -/
def c7OutC : DB :=
  { egDB with statistics :=
      [ { metadata_id := 9, start_ts := 0, created_ts := 0,
          state := some 1, sum := some 1 },
        { metadata_id := 7, start_ts := 0, created_ts := 0,
          state := some 2, sum := some 2 },
        { metadata_id := 7, start_ts := 3600, created_ts := 3600,
          state := some 3, sum := some 5 } ] }

/-- `cDB` after deriving costs with the explicit rate 1/3 and
`clear_existing`: the prior cost row at bucket 0 is removed, the energy
series survives, and the two fresh cost rows are appended. -/
def cOutC : DB :=
  { cDB with statistics :=
      [ { metadata_id := 7, start_ts := 0, created_ts := 0,
          state := some 2, sum := some 2 },
        { metadata_id := 7, start_ts := 3600, created_ts := 3600,
          state := some 3, sum := some 5 },
        { metadata_id := 7, start_ts := 7200, created_ts := 7200,
          state := none, sum := some 5 },
        { metadata_id := 9, start_ts := 0, created_ts := 0,
          state := some (2 / 3), sum := some (2 / 3) },
        { metadata_id := 9, start_ts := 3600, created_ts := 3600,
          state := some 1, sum := some (5 / 3) } ] }

/-- The number of stored raw readings for the (entity, observed-timestamp)
pair, resolving the entity through `states_meta` exactly as the handler
does. -/
def countReadings (db : DB) (e : String) (lc : Int) : Nat :=
  match db.states_meta.find? (fun p => p.2 == e) with
  | some p =>
    (db.states.filter
      (fun r => r.metadata_id == p.1 && r.last_changed_ts == lc)).length
  | none => 0

/-- The raw-reading row `backfill_state` inserts. -/
def bfRow (mid : Nat) (st : String) (lc lu : Int) : StateRow :=
  { metadata_id := mid, state := st, last_changed_ts := lc,
    last_updated_ts := lu,
    attributes := "\x7b\"unit_of_measurement\": \"kWh\"\x7d" }

/-- `egDB` after recording one new reading "4.0" at t=7200. -/
def egBF : DB :=
  { egDB with states := egDB.states ++
      [ { metadata_id := 1, state := "4.0", last_changed_ts := 7200,
          last_updated_ts := 7200,
          attributes := "\x7b\"unit_of_measurement\": \"kWh\"\x7d" } ] }

/-! ## Derived notions used by the verification -/

/-- The bucket row for `(sid, h)` has been written with point value `v` and
cumulative value `s`: at least one row carries the key and every row carrying
the key carries exactly those values. -/
def writtenAt (tbl : List StatRow) (sid : Nat) (h : Int) (v s : ℚ) : Prop :=
  (∃ r ∈ tbl, r.metadata_id = sid ∧ r.start_ts = h) ∧
  (∀ r ∈ tbl, r.metadata_id = sid → r.start_ts = h →
    r.state = some v ∧ r.sum = some s)

/-- The prefix sum of point values over the buckets of `hs` up to and
including bucket `h`. -/
def prefixWithin (d : List (Int × ℚ)) (hs : List Int) (h : Int) : ℚ :=
  ((hs.filter (fun x => decide (x ≤ h))).map (lookupD d)).sum

/-- The rows the upsert walk inserts when no bucket row pre-exists, in bucket
order, carrying the running cumulative sums. -/
def freshRows (sid : Nat) (d : List (Int × ℚ)) : List Int → ℚ → List StatRow
  | [], _ => []
  | h :: hs, cum =>
    { metadata_id := sid, start_ts := h, created_ts := h,
      state := some (lookupD d h), sum := some (cum + lookupD d h) }
      :: freshRows sid d hs (cum + lookupD d h)

/-- The buckets of the energy rows carrying a non-NULL value (the buckets
the cost walk writes). -/
def valuedKeys (rows : List (Int × Option ℚ)) : List Int :=
  rows.filterMap (fun p => match p.2 with | some _ => some p.1 | none => none)

/-- The rows the cost walk inserts when no cost row pre-exists: one per
non-NULL energy bucket, in order, carrying the running cumulative cost. -/
def freshCostRows (cid : Nat) (rate : ℚ) : List (Int × Option ℚ) → ℚ → List StatRow
  | [], _ => []
  | (_, none) :: rest, cum => freshCostRows cid rate rest cum
  | (ts, some v) :: rest, cum =>
    { metadata_id := cid, start_ts := ts, created_ts := ts,
      state := some (v * rate), sum := some (cum + v * rate) }
      :: freshCostRows cid rate rest (cum + v * rate)

/-- The cost row for `(cid, ts)` has been written with point value `v`. -/
def costWrittenAt (tbl : List StatRow) (cid : Nat) (ts : Int) (v : ℚ) : Prop :=
  (∃ r ∈ tbl, r.metadata_id = cid ∧ r.start_ts = ts) ∧
  (∀ r ∈ tbl, r.metadata_id = cid → r.start_ts = ts → r.state = some v)

/-! ## Fault-injected instrumentation

Every `cursor.execute` / `conn.commit` is a storage operation that can raise
`sqlite3.Error`.  The instrumented variants thread an operation counter and a
fault point: operation number `failAt` raises with message `msg` (`failAt =
none` injects no fault).  A raised error propagates to the handler's
`except` block, which closes the connection without committing — so the
handlers return the unmodified store with `(error, 500)`. -/

/-- Pair a pure loop result with a final operation counter. -/
def withK (r : List StatRow × Nat × Nat × ℚ) (k : Nat) :
    List StatRow × Nat × Nat × ℚ × Nat :=
  (r.1, r.2.1, r.2.2.1, r.2.2.2, k)

/-- One storage operation: raises when the counter hits the fault point. -/
def tick (failAt : Option Nat) (msg : String) (k : Nat) : Except String Nat :=
  match failAt with
  | none => .ok (k + 1)
  | some f => if k = f then .error msg else .ok (k + 1)

/-- The two bulk DELETEs issued when `clear_existing` is set. -/
def clearTicks (failAt : Option Nat) (msg : String) (clear : Bool) (k : Nat) :
    Except String Nat :=
  if clear then
    match tick failAt msg k with
    | .error m => .error m
    | .ok k1 =>
      match tick failAt msg k1 with
      | .error m => .error m
      | .ok k2 => .ok k2
  else .ok k

/-- The orphan-pruning DELETE issued when `clear_existing` is not set. -/
def pruneTick (failAt : Option Nat) (msg : String) (clear : Bool) (k : Nat) :
    Except String Nat :=
  if clear then .ok k
  else
    match tick failAt msg k with
    | .error m => .error m
    | .ok k1 => .ok k1

/-- The rate-inference SELECT, issued only when the rate parameter is falsy. -/
def rateTick (failAt : Option Nat) (msg : String) (falsy : Bool) (k : Nat) :
    Except String Nat :=
  if falsy then
    match tick failAt msg k with
    | .error m => .error m
    | .ok k1 => .ok k1
  else .ok k

/-- The storage steps of `backfill_state` after the parameter check:
metadata SELECT, optional metadata INSERT, duplicate SELECT, then either
close-without-commit (skip) or state INSERT and commit. -/
def bfCoreM (failAt : Option Nat) (msg : String) (e st : String) (lc lu : Int)
    (db : DB) (k : Nat) : Except String HResult :=
  match tick failAt msg k with
  | .error m => .error m
  | .ok k1 =>
    match db.states_meta.find? (fun p => p.2 == e) with
    | some p =>
      match tick failAt msg k1 with
      | .error m => .error m
      | .ok k2 =>
        if db.states.any (fun r => r.metadata_id == p.1 && r.last_changed_ts == lc) then
          .ok (db, .skipped "duplicate", 200)
        else
          match tick failAt msg k2 with
          | .error m => .error m
          | .ok k3 =>
            match tick failAt msg k3 with
            | .error m => .error m
            | .ok _ =>
              .ok ({ db with states := db.states ++ [bfRow p.1 st lc lu] },
                .success, 200)
    | none =>
      match tick failAt msg k1 with
      | .error m => .error m
      | .ok k2 =>
        match tick failAt msg k2 with
        | .error m => .error m
        | .ok k3 =>
          if db.states.any (fun r => r.metadata_id == db.next_states_meta_id
              && r.last_changed_ts == lc) then
            .ok (db, .skipped "duplicate", 200)
          else
            match tick failAt msg k3 with
            | .error m => .error m
            | .ok k4 =>
              match tick failAt msg k4 with
              | .error m => .error m
              | .ok _ =>
                .ok ({ db with
                        states_meta := db.states_meta ++ [(db.next_states_meta_id, e)],
                        next_states_meta_id := db.next_states_meta_id + 1,
                        states := db.states ++
                          [bfRow db.next_states_meta_id st lc lu] },
                  .success, 200)

/-- `backfill_state` with fault injection: a raised storage error reaches the
`except` block, which closes without commit and returns the unmodified
store with status 500. -/
def backfill_state_flt (failAt : Option Nat) (msg : String)
    (entity_id state : Option String) (last_changed last_updated : Option Int)
    (db : DB) : HResult :=
  match entity_id, state, last_changed with
  | some e, some st, some lc =>
    if e = "" ∨ st = "" then (db, .error "Missing required parameters", 400)
    else
      match bfCoreM failAt msg e st lc (last_updated.getD lc) db 0 with
      | .error m => (db, .error m, 500)
      | .ok res => res
  | _, _, _ => (db, .error "Missing required parameters", 400)

/-- The instrumented upsert walk: one existence SELECT and one
UPDATE / INSERT per bucket. -/
def upsertHoursM (failAt : Option Nat) (msg : String) (sid : Nat)
    (d : List (Int × ℚ)) :
    List Int → List StatRow → Nat → Nat → ℚ → Nat →
      Except String (List StatRow × Nat × Nat × ℚ × Nat)
  | [], tbl, ins, upd, cum, k => .ok (tbl, ins, upd, cum, k)
  | h :: hs, tbl, ins, upd, cum, k =>
    match tick failAt msg k with
    | .error m => .error m
    | .ok k1 =>
      let v := lookupD d h
      let cum' := cum + v
      if tbl.any (fun r => keyMatch r sid h) then
        match tick failAt msg k1 with
        | .error m => .error m
        | .ok k2 =>
          upsertHoursM failAt msg sid d hs
            (tbl.map (fun r =>
              if keyMatch r sid h then { r with state := some v, sum := some cum' }
              else r))
            ins (upd + 1) cum' k2
      else
        match tick failAt msg k1 with
        | .error m => .error m
        | .ok k2 =>
          upsertHoursM failAt msg sid d hs
            (tbl ++ [{ metadata_id := sid, start_ts := h, created_ts := h,
                       state := some v, sum := some cum' }])
            (ins + 1) upd cum' k2

/-- The storage steps of `generate_statistics` after metadata resolution:
optional bulk clear, states SELECT, optional orphan DELETE, upsert walk,
commit. -/
def gsCoreM (failAt : Option Nat) (msg : String) (sid mid : Nat) (clear : Bool)
    (db : DB) (k : Nat) : Except String HResult :=
  match clearTicks failAt msg clear k with
  | .error m => .error m
  | .ok k4 =>
    match tick failAt msg k4 with
    | .error m => .error m
    | .ok k5 =>
      if filteredStates db mid = [] then
        .ok (db, .error "No valid states found", 404)
      else
        match buildHourly (filteredStates db mid) [] with
        | none => .ok (db, .error "could not convert string to float", 500)
        | some d =>
          match hoursOf d with
          | [] => .ok (db, .error "No hourly data found", 404)
          | h0 :: hrest =>
            match pruneTick failAt msg clear k5 with
            | .error m => .error m
            | .ok k6 =>
              match upsertHoursM failAt msg sid d (h0 :: hrest)
                  (gsPruned sid clear db h0 (h0 :: hrest)).1 0 0 0 k6 with
              | .error m => .error m
              | .ok (tbl, ins, upd, cum, k7) =>
                match tick failAt msg k7 with
                | .error m => .error m
                | .ok _ =>
                  .ok ({ db with
                           statistics := tbl,
                           statistics_short_term := stagedShort sid clear db },
                    .statsSuccess ins upd (gsPruned sid clear db h0 (h0 :: hrest)).2
                      d.length cum, 200)

/-- `generate_statistics` with fault injection (the two metadata SELECTs are
operations 0 and 1). -/
def generate_statistics_flt (failAt : Option Nat) (msg : String)
    (entity_id : Option String) (clear_existing : Bool) (db : DB) : HResult :=
  if strFalsy entity_id then (db, .error "entity_id required", 400)
  else
    let e := entity_id.getD ""
    match tick failAt msg 0 with
    | .error m => (db, .error m, 500)
    | .ok k1 =>
      match statsMetaId db e with
      | none => (db, .error "No statistics metadata found", 404)
      | some sid =>
        match tick failAt msg k1 with
        | .error m => (db, .error m, 500)
        | .ok k2 =>
          match statesMetaId db e with
          | none => (db, .error "No states found", 404)
          | some mid =>
            match gsCoreM failAt msg sid mid clear_existing db k2 with
            | .error m => (db, .error m, 500)
            | .ok res => res

/-- The instrumented cost walk: NULL-valued rows are skipped without touching
storage; each valued row issues one existence SELECT and one
UPDATE / INSERT. -/
def costLoopM (failAt : Option Nat) (msg : String) (cid : Nat) (rate : ℚ) :
    List (Int × Option ℚ) → List StatRow → Nat → Nat → ℚ → Nat →
      Except String (List StatRow × Nat × Nat × ℚ × Nat)
  | [], tbl, ins, upd, cum, k => .ok (tbl, ins, upd, cum, k)
  | (_, none) :: rest, tbl, ins, upd, cum, k =>
    costLoopM failAt msg cid rate rest tbl ins upd cum k
  | (ts, some ekwh) :: rest, tbl, ins, upd, cum, k =>
    match tick failAt msg k with
    | .error m => .error m
    | .ok k1 =>
      let hc := ekwh * rate
      let cum' := cum + hc
      if tbl.any (fun r => keyMatch r cid ts) then
        match tick failAt msg k1 with
        | .error m => .error m
        | .ok k2 =>
          costLoopM failAt msg cid rate rest
            (tbl.map (fun r =>
              if keyMatch r cid ts then { r with state := some hc, sum := some cum' }
              else r))
            ins (upd + 1) cum' k2
      else
        match tick failAt msg k1 with
        | .error m => .error m
        | .ok k2 =>
          costLoopM failAt msg cid rate rest
            (tbl ++ [{ metadata_id := cid, start_ts := ts, created_ts := ts,
                       state := some hc, sum := some cum' }])
            (ins + 1) upd cum' k2

/-- The storage steps of `generate_cost_statistics` after metadata
resolution: optional bulk clear, optional rate-inference SELECT, energy
SELECT, optional orphan DELETE, cost walk, commit. -/
def gcsCoreM (failAt : Option Nat) (msg : String) (eid cid : Nat)
    (rate : RateParam) (clear : Bool) (db : DB) (k : Nat) :
    Except String HResult :=
  match clearTicks failAt msg clear k with
  | .error m => .error m
  | .ok k4 =>
    match rateTick failAt msg (rateFalsy rate) k4 with
    | .error m => .error m
    | .ok k5 =>
      match rateOf eid cid rate (stagedStats cid clear db) with
      | .error pc => .ok (db, pc.1, pc.2)
      | .ok rateV =>
        match tick failAt msg k5 with
        | .error m => .error m
        | .ok k6 =>
          match energyRows (stagedStats cid clear db) eid with
          | [] => .ok (db, .error "No energy statistics found", 404)
          | (t0, v0) :: erest =>
            match pruneTick failAt msg clear k6 with
            | .error m => .error m
            | .ok k7 =>
              match costLoopM failAt msg cid rateV ((t0, v0) :: erest)
                  (gsPruned cid clear db t0 (((t0, v0) :: erest).map Prod.fst)).1
                  0 0 0 k7 with
              | .error m => .error m
              | .ok (tbl, ins, upd, cum, k8) =>
                match tick failAt msg k8 with
                | .error m => .error m
                | .ok _ =>
                  .ok ({ db with
                           statistics := tbl,
                           statistics_short_term := stagedShort cid clear db },
                    .costSuccess ins upd ((t0, v0) :: erest).length cum rateV,
                    200)

/-- `generate_cost_statistics` with fault injection. -/
def generate_cost_statistics_flt (failAt : Option Nat) (msg : String)
    (energy_entity_id cost_entity_id : Option String) (rate : RateParam)
    (clear_existing : Bool) (db : DB) : HResult :=
  if strFalsy energy_entity_id || strFalsy cost_entity_id then
    (db, .error "energy_entity_id and cost_entity_id required", 400)
  else
    let ee := energy_entity_id.getD ""
    let ce := cost_entity_id.getD ""
    match tick failAt msg 0 with
    | .error m => (db, .error m, 500)
    | .ok k1 =>
      match statsMetaId db ee with
      | none => (db, .error "No statistics metadata found for energy entity", 404)
      | some eid =>
        match tick failAt msg k1 with
        | .error m => (db, .error m, 500)
        | .ok k2 =>
          match statsMetaId db ce with
          | none => (db, .error "No statistics metadata found for cost entity", 404)
          | some cid =>
            match gcsCoreM failAt msg eid cid rate clear_existing db k2 with
            | .error m => (db, .error m, 500)
            | .ok res => res

/-! ## Basic lemmas -/

theorem keyMatch_iff {r : StatRow} {sid : Nat} {ts : Int} :
    keyMatch r sid ts = true ↔ r.metadata_id = sid ∧ r.start_ts = ts := by
  simp [keyMatch]

theorem keyMatch_false {r : StatRow} {sid : Nat} {ts : Int}
    (h : ¬(r.metadata_id = sid ∧ r.start_ts = ts)) : keyMatch r sid ts = false := by
  simp [keyMatch]
  intro h1
  exact fun h2 => h ⟨h1, h2⟩

/-- Overwriting `state` and `sum` with their current values is the identity
UPDATE. -/
theorem StatRow.set_eq_self {r : StatRow} {v s : Option ℚ}
    (hv : r.state = v) (hs : r.sum = s) :
    ({ r with state := v, sum := s } : StatRow) = r := by
  cases r
  cases hv
  cases hs
  rfl

theorem sorted_head_le {h0 x : Int} {hs : List Int}
    (hsort : (h0 :: hs).Sorted (· ≤ ·)) (hx : x ∈ h0 :: hs) : h0 ≤ x := by
  rcases List.mem_cons.mp hx with rfl | hx
  · exact le_refl x
  · exact List.rel_of_sorted_cons hsort x hx

theorem sorted_le_lastTs : ∀ {l : List Int}, l.Sorted (· ≤ ·) → ∀ x ∈ l, x ≤ lastTs l
  | [], _, x, hx => by cases hx
  | [a], _, x, hx => by
    rcases List.mem_cons.mp hx with rfl | h
    · exact le_refl x
    · cases h
  | a :: b :: l, hsort, x, hx => by
    rcases List.mem_cons.mp hx with rfl | hx
    · calc x ≤ b := List.rel_of_sorted_cons hsort b (List.mem_cons_self b l)
        _ ≤ lastTs (b :: l) :=
          sorted_le_lastTs hsort.of_cons b (List.mem_cons_self b l)
    · exact sorted_le_lastTs hsort.of_cons x hx

/-- Filtering is unaffected by a map that fixes the rows the filter keeps and
preserves the filter value. -/
theorem filter_map_eq_filter {f : StatRow → StatRow} {p : StatRow → Bool}
    (hid : ∀ r, p r = true → f r = r) (hp : ∀ r, p (f r) = p r) :
    ∀ (l : List StatRow), (l.map f).filter p = l.filter p := by
  intro l
  induction l with
  | nil => rfl
  | cons a l ih =>
    by_cases h : p a = true
    · simp only [List.map_cons, List.filter_cons, hp a, h, if_true, ih, hid a h]
    · have h' : p a = false := Bool.eq_false_iff.mpr h
      simp only [List.map_cons, List.filter_cons, hp a, h', Bool.false_eq_true, if_false, ih]

/-! ## The upsert walk: characterization lemmas -/

/-- The final running sum of the upsert walk is the start value plus the sum
of all per-bucket point values. -/
theorem upsertHours_cum (sid : Nat) (d : List (Int × ℚ)) :
    ∀ (hs : List Int) (tbl : List StatRow) (ins upd : Nat) (cum : ℚ),
      (upsertHours sid d hs tbl ins upd cum).2.2.2 = cum + (hs.map (lookupD d)).sum
  | [], tbl, ins, upd, cum => by simp [upsertHours]
  | h :: hs, tbl, ins, upd, cum => by
    by_cases hc : tbl.any (fun r => keyMatch r sid h) = true
    · rw [upsertHours, if_pos hc, upsertHours_cum sid d hs]
      simp [add_assoc]
    · rw [upsertHours, if_neg hc, upsertHours_cum sid d hs]
      simp [add_assoc]

/-- Buckets not processed keep their written values. -/
theorem upsertHours_preserves (sid : Nat) (d : List (Int × ℚ)) {h : Int} {v s : ℚ} :
    ∀ (hs : List Int) (tbl : List StatRow) (ins upd : Nat) (cum : ℚ),
      h ∉ hs → writtenAt tbl sid h v s →
      writtenAt (upsertHours sid d hs tbl ins upd cum).1 sid h v s
  | [], tbl, ins, upd, cum, _, hw => by simpa [upsertHours] using hw
  | h' :: hs, tbl, ins, upd, cum, hnm, hw => by
    have hne : h ≠ h' := fun he => hnm (he ▸ List.mem_cons_self h' hs)
    have hnm' : h ∉ hs := fun hm => hnm (List.mem_cons_of_mem h' hm)
    by_cases hc : tbl.any (fun r => keyMatch r sid h') = true
    · rw [upsertHours, if_pos hc]
      refine upsertHours_preserves sid d hs _ ins (upd + 1) _ hnm' ?_
      obtain ⟨⟨r0, hr0, hr0m, hr0t⟩, hall⟩ := hw
      constructor
      · refine ⟨if keyMatch r0 sid h' then
          { r0 with state := some (lookupD d h'), sum := some (cum + lookupD d h') } else r0,
          List.mem_map_of_mem _ hr0, ?_⟩
        by_cases hk : keyMatch r0 sid h' = true
        · simp [hk, hr0m, hr0t]
        · simp [Bool.eq_false_iff.mpr hk, hr0m, hr0t]
      · intro r' hr' hm' ht'
        obtain ⟨r1, hr1, hfr1⟩ := List.mem_map.mp hr'
        by_cases hk : keyMatch r1 sid h' = true
        · exfalso
          rw [if_pos hk] at hfr1
          have : r'.start_ts = r1.start_ts := by rw [← hfr1]
          rw [ht'] at this
          exact hne (this.trans (keyMatch_iff.mp hk).2)
        · rw [if_neg (by simpa using hk)] at hfr1
          exact hall r' (hfr1 ▸ hr1) hm' ht'
    · rw [upsertHours, if_neg hc]
      refine upsertHours_preserves sid d hs _ (ins + 1) upd _ hnm' ?_
      obtain ⟨⟨r0, hr0, hr0m, hr0t⟩, hall⟩ := hw
      constructor
      · exact ⟨r0, List.mem_append_left _ hr0, hr0m, hr0t⟩
      · intro r' hr' hm' ht'
        rcases List.mem_append.mp hr' with hr'' | hr''
        · exact hall r' hr'' hm' ht'
        · exfalso
          rcases List.mem_singleton.mp hr'' with rfl
          exact hne ht'.symm

theorem prefixWithin_cons_self {d : List (Int × ℚ)} {h0 : Int} {rest : List Int}
    (hlt : ∀ x ∈ rest, h0 < x) :
    prefixWithin d (h0 :: rest) h0 = lookupD d h0 := by
  have hrest : rest.filter (fun x => decide (x ≤ h0)) = [] := by
    refine List.filter_eq_nil_iff.mpr fun x hx => ?_
    simpa using not_le.mpr (hlt x hx)
  simp [prefixWithin, List.filter_cons, hrest]

theorem prefixWithin_cons_of_le {d : List (Int × ℚ)} {h0 h : Int} {rest : List Int}
    (hle : h0 ≤ h) :
    prefixWithin d (h0 :: rest) h = lookupD d h0 + prefixWithin d rest h := by
  simp [prefixWithin, List.filter_cons, hle]

/-- After the walk, every processed bucket's row carries the point value of
the bucket and the running sum accumulated up to that bucket. -/
theorem upsertHours_writes (sid : Nat) (d : List (Int × ℚ)) :
    ∀ (hs : List Int) (tbl : List StatRow) (ins upd : Nat) (cum : ℚ),
      hs.Sorted (· < ·) → ∀ h ∈ hs,
      writtenAt (upsertHours sid d hs tbl ins upd cum).1 sid h (lookupD d h)
        (cum + prefixWithin d hs h)
  | [], tbl, ins, upd, cum, _, h, hmem => absurd hmem (List.not_mem_nil h)
  | h0 :: rest, tbl, ins, upd, cum, hsort, h, hmem => by
    have hlt : ∀ x ∈ rest, h0 < x := List.rel_of_sorted_cons hsort
    have hrsort : rest.Sorted (· < ·) := hsort.of_cons
    rcases List.mem_cons.mp hmem with rfl | hmem'
    · -- the bucket processed in this step
      rw [prefixWithin_cons_self hlt]
      have hnin : h ∉ rest := fun hin => lt_irrefl h (hlt h hin)
      by_cases hc : tbl.any (fun r => keyMatch r sid h) = true
      · rw [upsertHours, if_pos hc]
        refine upsertHours_preserves sid d rest _ ins (upd + 1) _ hnin ?_
        obtain ⟨r0, hr0, hk0⟩ := List.any_eq_true.mp hc
        constructor
        · refine ⟨{ r0 with state := some (lookupD d h), sum := some (cum + lookupD d h) },
            ?_, (keyMatch_iff.mp hk0).1, (keyMatch_iff.mp hk0).2⟩
          exact List.mem_map.mpr ⟨r0, hr0, by simp [hk0]⟩
        · intro r' hr' hm' ht'
          obtain ⟨r1, hr1, hfr1⟩ := List.mem_map.mp hr'
          by_cases hk : keyMatch r1 sid h = true
          · rw [if_pos hk] at hfr1
            rw [← hfr1]
            exact ⟨rfl, rfl⟩
          · rw [if_neg (by simpa using hk)] at hfr1
            exact absurd (keyMatch_iff.mpr ⟨hfr1 ▸ hm', hfr1 ▸ ht'⟩) (by simpa using hk)
      · rw [upsertHours, if_neg hc]
        refine upsertHours_preserves sid d rest _ (ins + 1) upd _ hnin ?_
        have hall : ∀ r ∈ tbl, keyMatch r sid h = false := by
          intro r hr
          cases hb : keyMatch r sid h with
          | false => rfl
          | true => exact absurd (List.any_eq_true.mpr ⟨r, hr, hb⟩) hc
        constructor
        · exact ⟨_, List.mem_append_right tbl (List.mem_singleton_self _), rfl, rfl⟩
        · intro r' hr' hm' ht'
          rcases List.mem_append.mp hr' with hr'' | hr''
          · exact absurd (keyMatch_iff.mpr ⟨hm', ht'⟩)
              (by simpa using hall r' hr'')
          · rcases List.mem_singleton.mp hr'' with rfl
            exact ⟨rfl, rfl⟩
    · -- a later bucket: induction after this step
      have hle : h0 ≤ h := le_of_lt (hlt h hmem')
      rw [prefixWithin_cons_of_le hle, ← add_assoc]
      by_cases hc : tbl.any (fun r => keyMatch r sid h0) = true
      · rw [upsertHours, if_pos hc]
        exact upsertHours_writes sid d rest _ ins (upd + 1) _ hrsort h hmem'
      · rw [upsertHours, if_neg hc]
        exact upsertHours_writes sid d rest _ (ins + 1) upd _ hrsort h hmem'

/-- Every row of the walked table either was already in the staged table or
is a row of the target series at a processed bucket. -/
theorem upsertHours_origin (sid : Nat) (d : List (Int × ℚ)) :
    ∀ (hs : List Int) (tbl : List StatRow) (ins upd : Nat) (cum : ℚ) (r : StatRow),
      r ∈ (upsertHours sid d hs tbl ins upd cum).1 →
      r ∈ tbl ∨ (r.metadata_id = sid ∧ r.start_ts ∈ hs)
  | [], tbl, ins, upd, cum, r, hr => Or.inl (by simpa [upsertHours] using hr)
  | h0 :: rest, tbl, ins, upd, cum, r, hr => by
    by_cases hc : tbl.any (fun r => keyMatch r sid h0) = true
    · rw [upsertHours, if_pos hc] at hr
      rcases upsertHours_origin sid d rest _ ins (upd + 1) _ r hr with h1 | h2
      · obtain ⟨r1, hr1, hfr1⟩ := List.mem_map.mp h1
        by_cases hk : keyMatch r1 sid h0 = true
        · rw [if_pos hk] at hfr1
          refine Or.inr ⟨?_, ?_⟩
          · rw [← hfr1]
            exact (keyMatch_iff.mp hk).1
          · rw [← hfr1]
            simp [(keyMatch_iff.mp hk).2]
        · rw [if_neg (by simpa using hk)] at hfr1
          exact Or.inl (hfr1 ▸ hr1)
      · exact Or.inr ⟨h2.1, List.mem_cons_of_mem h0 h2.2⟩
    · rw [upsertHours, if_neg hc] at hr
      rcases upsertHours_origin sid d rest _ (ins + 1) upd _ r hr with h1 | h2
      · rcases List.mem_append.mp h1 with hr'' | hr''
        · exact Or.inl hr''
        · rcases List.mem_singleton.mp hr'' with rfl
          exact Or.inr ⟨rfl, List.mem_cons_self h0 rest⟩
      · exact Or.inr ⟨h2.1, List.mem_cons_of_mem h0 h2.2⟩

/-- Rows whose key is not among the processed buckets pass through the walk
untouched. -/
theorem upsertHours_keeps (sid : Nat) (d : List (Int × ℚ)) :
    ∀ (hs : List Int) (tbl : List StatRow) (ins upd : Nat) (cum : ℚ) (r : StatRow),
      r ∈ tbl → ¬(r.metadata_id = sid ∧ r.start_ts ∈ hs) →
      r ∈ (upsertHours sid d hs tbl ins upd cum).1
  | [], tbl, ins, upd, cum, r, hr, _ => by simpa [upsertHours] using hr
  | h0 :: rest, tbl, ins, upd, cum, r, hr, hcond => by
    have hcond' : ¬(r.metadata_id = sid ∧ r.start_ts ∈ rest) := by
      intro ⟨hm, ht⟩
      exact hcond ⟨hm, List.mem_cons_of_mem h0 ht⟩
    have hk : keyMatch r sid h0 = false := by
      refine keyMatch_false fun ⟨hm, ht⟩ => ?_
      exact hcond ⟨hm, ht ▸ List.mem_cons_self h0 rest⟩
    by_cases hc : tbl.any (fun r => keyMatch r sid h0) = true
    · rw [upsertHours, if_pos hc]
      exact upsertHours_keeps sid d rest _ ins (upd + 1) _ r
        (List.mem_map.mpr ⟨r, hr, by simp [hk]⟩) hcond'
    · rw [upsertHours, if_neg hc]
      exact upsertHours_keeps sid d rest _ (ins + 1) upd _ r
        (List.mem_append_left _ hr) hcond'

/-- The walk does not touch rows of other series (as an ordered sublist with
values). -/
theorem upsertHours_frame (sid : Nat) (d : List (Int × ℚ)) :
    ∀ (hs : List Int) (tbl : List StatRow) (ins upd : Nat) (cum : ℚ),
      ((upsertHours sid d hs tbl ins upd cum).1).filter (fun r => !(r.metadata_id == sid))
        = tbl.filter (fun r => !(r.metadata_id == sid))
  | [], tbl, ins, upd, cum => by simp [upsertHours]
  | h0 :: rest, tbl, ins, upd, cum => by
    by_cases hc : tbl.any (fun r => keyMatch r sid h0) = true
    · rw [upsertHours, if_pos hc, upsertHours_frame sid d rest]
      refine filter_map_eq_filter ?_ ?_ tbl
      · intro r hp
        have hm : r.metadata_id ≠ sid := by simpa using hp
        rw [if_neg (by simp [keyMatch_false fun hx => hm hx.1])]
      · intro r
        by_cases hk : keyMatch r sid h0 = true
        · rw [if_pos hk]
        · rw [if_neg (by simpa using hk)]
    · rw [upsertHours, if_neg hc, upsertHours_frame sid d rest, List.filter_append]
      simp

/-- When the staged table holds no row keyed at any processed bucket, the
walk only inserts: it appends one fresh row per bucket. -/
theorem upsertHours_fresh (sid : Nat) (d : List (Int × ℚ)) :
    ∀ (hs : List Int) (tbl : List StatRow) (ins upd : Nat) (cum : ℚ),
      hs.Nodup → (∀ r ∈ tbl, r.metadata_id = sid → r.start_ts ∉ hs) →
      upsertHours sid d hs tbl ins upd cum
        = (tbl ++ freshRows sid d hs cum, ins + hs.length, upd,
           cum + (hs.map (lookupD d)).sum)
  | [], tbl, ins, upd, cum, _, _ => by simp [upsertHours, freshRows]
  | h0 :: rest, tbl, ins, upd, cum, hnd, hkeys => by
    have hc : tbl.any (fun r => keyMatch r sid h0) = false := by
      cases hb : tbl.any (fun r => keyMatch r sid h0) with
      | false => rfl
      | true =>
        obtain ⟨r, hr, hk⟩ := List.any_eq_true.mp hb
        exact absurd ((keyMatch_iff.mp hk).2 ▸ List.mem_cons_self h0 rest)
          (hkeys r hr (keyMatch_iff.mp hk).1)
    rw [upsertHours, if_neg (by simp [hc])]
    have hkeys' : ∀ r ∈ tbl ++ [({ metadata_id := sid, start_ts := h0,
                                   created_ts := h0, state := some (lookupD d h0),
                                   sum := some (cum + lookupD d h0) } : StatRow)],
        r.metadata_id = sid → r.start_ts ∉ rest := by
      intro r hr hm
      rcases List.mem_append.mp hr with hr' | hr'
      · exact fun ht => hkeys r hr' hm (List.mem_cons_of_mem h0 ht)
      · rcases List.mem_singleton.mp hr' with rfl
        exact List.Nodup.not_mem hnd
    rw [upsertHours_fresh sid d rest _ (ins + 1) upd _ hnd.of_cons hkeys']
    simp [freshRows, List.append_assoc, add_assoc, add_comm, add_left_comm]

/-- Re-running the walk on a table that already carries exactly the values
the walk would write changes nothing: every bucket is an UPDATE in place and
the counters and final sum are reproduced. -/
theorem upsertHours_fixpoint (sid : Nat) (d : List (Int × ℚ)) :
    ∀ (hs : List Int) (tbl : List StatRow) (ins upd : Nat) (cum : ℚ),
      hs.Sorted (· < ·) →
      (∀ h ∈ hs, writtenAt tbl sid h (lookupD d h) (cum + prefixWithin d hs h)) →
      upsertHours sid d hs tbl ins upd cum
        = (tbl, ins, upd + hs.length, cum + (hs.map (lookupD d)).sum)
  | [], tbl, ins, upd, cum, _, _ => by simp [upsertHours]
  | h0 :: rest, tbl, ins, upd, cum, hsort, hex => by
    have hlt : ∀ x ∈ rest, h0 < x := List.rel_of_sorted_cons hsort
    have hw0 := hex h0 (List.mem_cons_self h0 rest)
    rw [prefixWithin_cons_self hlt] at hw0
    obtain ⟨⟨r0, hr0, hr0m, hr0t⟩, hall⟩ := hw0
    have hc : tbl.any (fun r => keyMatch r sid h0) = true :=
      List.any_eq_true.mpr ⟨r0, hr0, keyMatch_iff.mpr ⟨hr0m, hr0t⟩⟩
    rw [upsertHours, if_pos hc]
    have hmap : (tbl.map (fun r => if keyMatch r sid h0 then
        { r with state := some (lookupD d h0), sum := some (cum + lookupD d h0) }
        else r)) = tbl := by
      have hcg : ∀ r ∈ tbl, (if keyMatch r sid h0 then
          { r with state := some (lookupD d h0), sum := some (cum + lookupD d h0) }
          else r) = id r := by
        intro r hr
        by_cases hk : keyMatch r sid h0 = true
        · obtain ⟨hst, hsm⟩ := hall r hr (keyMatch_iff.mp hk).1 (keyMatch_iff.mp hk).2
          rw [if_pos hk]
          exact StatRow.set_eq_self hst hsm
        · rw [if_neg (by simpa using hk)]
          rfl
      rw [List.map_congr_left hcg, List.map_id]
    rw [hmap]
    have hex' : ∀ h ∈ rest,
        writtenAt tbl sid h (lookupD d h)
          ((cum + lookupD d h0) + prefixWithin d rest h) := by
      intro h hm
      have := hex h (List.mem_cons_of_mem h0 hm)
      rwa [prefixWithin_cons_of_le (le_of_lt (hlt h hm)), ← add_assoc] at this
    rw [upsertHours_fixpoint sid d rest tbl ins (upd + 1) _ hsort.of_cons hex']
    simp [add_assoc, add_comm, add_left_comm]

/-! ## Keys of the hourly grouping -/

theorem dictUpsert_keys (d : List (Int × ℚ)) (k : Int) (v : ℚ) :
    (dictUpsert d k v).map Prod.fst
      = if d.any (fun p => p.1 == k) then d.map Prod.fst else d.map Prod.fst ++ [k] := by
  by_cases hc : d.any (fun p => p.1 == k) = true
  · rw [dictUpsert, if_pos hc, if_pos hc, List.map_map]
    refine List.map_congr_left fun p _ => ?_
    by_cases hk : p.1 = k
    · simp [hk]
    · simp [hk]
  · rw [dictUpsert, if_neg hc, if_neg hc, List.map_append]
    rfl

theorem dictUpsert_keys_nodup {d : List (Int × ℚ)} {k : Int} {v : ℚ}
    (h : (d.map Prod.fst).Nodup) : ((dictUpsert d k v).map Prod.fst).Nodup := by
  rw [dictUpsert_keys]
  by_cases hc : d.any (fun p => p.1 == k) = true
  · rwa [if_pos hc]
  · rw [if_neg hc]
    have hk : k ∉ d.map Prod.fst := by
      intro hm
      obtain ⟨p, hp, hpk⟩ := List.mem_map.mp hm
      exact hc (List.any_eq_true.mpr ⟨p, hp, by simp [hpk]⟩)
    simp [List.nodup_append, h, hk]

theorem buildHourly_keys_nodup :
    ∀ (rs : List StateRow) (d d' : List (Int × ℚ)),
      (d.map Prod.fst).Nodup → buildHourly rs d = some d' → (d'.map Prod.fst).Nodup
  | [], d, d', h, heq => by
    rw [buildHourly] at heq
    cases heq
    exact h
  | r :: rs, d, d', h, heq => by
    rw [buildHourly] at heq
    cases hp : pythonFloat r.state with
    | none => rw [hp] at heq; cases heq
    | some v =>
      rw [hp] at heq
      exact buildHourly_keys_nodup rs _ d' (dictUpsert_keys_nodup h) heq

theorem hoursOf_sorted (d : List (Int × ℚ)) : (hoursOf d).Sorted (· ≤ ·) :=
  List.sorted_insertionSort _ _

theorem hoursOf_perm (d : List (Int × ℚ)) : List.Perm (hoursOf d) (d.map Prod.fst) :=
  List.perm_insertionSort _ _

theorem hoursOf_nodup {d : List (Int × ℚ)} (h : (d.map Prod.fst).Nodup) :
    (hoursOf d).Nodup := ((hoursOf_perm d).nodup_iff).mpr h

theorem hoursOf_sorted_lt {d : List (Int × ℚ)} (h : (d.map Prod.fst).Nodup) :
    (hoursOf d).Sorted (· < ·) := (hoursOf_sorted d).lt_of_le (hoursOf_nodup h)

theorem hoursOf_length (d : List (Int × ℚ)) : (hoursOf d).length = d.length :=
  ((hoursOf_perm d).length_eq).trans (List.length_map _ _)

theorem hoursOf_mem {d : List (Int × ℚ)} {h : Int} :
    h ∈ hoursOf d ↔ h ∈ d.map Prod.fst := (hoursOf_perm d).mem_iff

/-! ## Running `generate_statistics`: inversion of the success path -/

theorem dictUpsert_ne_nil (d : List (Int × ℚ)) (k : Int) (v : ℚ) :
    dictUpsert d k v ≠ [] := by
  rw [dictUpsert]
  by_cases hc : d.any (fun p => p.1 == k) = true
  · rw [if_pos hc]
    intro hmap
    rcases List.map_eq_nil_iff.mp hmap with rfl
    simp at hc
  · rw [if_neg hc]
    simp

theorem buildHourly_ne_nil :
    ∀ (rs : List StateRow) (d0 d' : List (Int × ℚ)),
      d0 ≠ [] → buildHourly rs d0 = some d' → d' ≠ []
  | [], d0, d', h0, heq => by
    rw [buildHourly] at heq
    cases heq
    exact h0
  | r :: rs, d0, d', h0, heq => by
    rw [buildHourly] at heq
    cases hp : pythonFloat r.state with
    | none => rw [hp] at heq; cases heq
    | some v =>
      rw [hp] at heq
      exact buildHourly_ne_nil rs _ d' (dictUpsert_ne_nil d0 _ v) heq

theorem hoursOf_ne_nil {d : List (Int × ℚ)} (h : d ≠ []) : hoursOf d ≠ [] := by
  intro hnil
  have := hoursOf_length d
  rw [hnil] at this
  exact h (List.length_eq_zero.mp this.symm)

/-- Computing `gsCore` on the success path. -/
theorem gsCore_run {sid mid : Nat} {clear : Bool} {db : DB} {d : List (Int × ℚ)}
    {h0 : Int} {hrest : List Int}
    (hb : buildHourly (filteredStates db mid) [] = some d)
    (hh : hoursOf d = h0 :: hrest) :
    gsCore sid mid clear db =
      ({ db with
          statistics := (upsertHours sid d (h0 :: hrest)
            (gsPruned sid clear db h0 (h0 :: hrest)).1 0 0 0).1,
          statistics_short_term := stagedShort sid clear db },
        .statsSuccess
          (upsertHours sid d (h0 :: hrest) (gsPruned sid clear db h0 (h0 :: hrest)).1 0 0 0).2.1
          (upsertHours sid d (h0 :: hrest) (gsPruned sid clear db h0 (h0 :: hrest)).1 0 0 0).2.2.1
          (gsPruned sid clear db h0 (h0 :: hrest)).2 d.length
          (upsertHours sid d (h0 :: hrest) (gsPruned sid clear db h0 (h0 :: hrest)).1 0 0 0).2.2.2,
        200) := by
  have hne : filteredStates db mid ≠ [] := by
    intro h
    rw [h, buildHourly] at hb
    cases hb
    simp [hoursOf] at hh
  simp only [gsCore]
  rw [if_neg hne, hb]
  simp only [hh]

/-- Parameter handling and metadata resolution of `generate_statistics`. -/
theorem generate_statistics_run {e : String} {clear : Bool} {db : DB} {sid mid : Nat}
    (hsid : statsMetaId db e = some sid) (hmid : statesMetaId db e = some mid)
    (he : e ≠ "") :
    generate_statistics (some e) clear db = gsCore sid mid clear db := by
  have hf : strFalsy (some e) = false := by simp [strFalsy, he]
  simp only [generate_statistics, hf, Bool.false_eq_true, if_false, Option.getD_some]
  rw [hsid, hmid]

/-- Inversion of a successful `generate_statistics` call: the recomputed
bucket list is nonempty and every component of the result is the
corresponding stage of the pipeline. -/
theorem generate_statistics_success_inv {e : String} {clear : Bool} {db db' : DB}
    {i u dl t : Nat} {f : ℚ} {sid mid : Nat} {d : List (Int × ℚ)}
    (hsid : statsMetaId db e = some sid) (hmid : statesMetaId db e = some mid)
    (hb : buildHourly (filteredStates db mid) [] = some d)
    (hrun : generate_statistics (some e) clear db = (db', .statsSuccess i u dl t f, 200)) :
    ∃ h0 hrest, hoursOf d = h0 :: hrest ∧
      db' = { db with
        statistics := (upsertHours sid d (h0 :: hrest)
          (gsPruned sid clear db h0 (h0 :: hrest)).1 0 0 0).1,
        statistics_short_term := stagedShort sid clear db } ∧
      i = (upsertHours sid d (h0 :: hrest) (gsPruned sid clear db h0 (h0 :: hrest)).1 0 0 0).2.1 ∧
      u = (upsertHours sid d (h0 :: hrest) (gsPruned sid clear db h0 (h0 :: hrest)).1 0 0 0).2.2.1 ∧
      dl = (gsPruned sid clear db h0 (h0 :: hrest)).2 ∧
      t = d.length ∧
      f = (upsertHours sid d (h0 :: hrest) (gsPruned sid clear db h0 (h0 :: hrest)).1 0 0 0).2.2.2 := by
  by_cases he : e = ""
  · subst he
    simp [generate_statistics, strFalsy] at hrun
  have hcore : gsCore sid mid clear db = (db', .statsSuccess i u dl t f, 200) := by
    rw [← generate_statistics_run hsid hmid he]
    exact hrun
  by_cases hs : filteredStates db mid = []
  · rw [gsCore, if_pos hs] at hcore
    simp at hcore
  obtain ⟨r0, rs, hsts⟩ := List.exists_cons_of_ne_nil hs
  have hdne : d ≠ [] := by
    have hb' := hb
    rw [hsts] at hb'
    rw [buildHourly] at hb'
    cases hp : pythonFloat r0.state with
    | none => rw [hp] at hb'; cases hb'
    | some v =>
      rw [hp] at hb'
      exact buildHourly_ne_nil rs _ d (dictUpsert_ne_nil [] _ v) hb'
  obtain ⟨h0, hrest, hh⟩ := List.exists_cons_of_ne_nil (hoursOf_ne_nil hdne)
  rw [gsCore_run hb hh] at hcore
  simp only [Prod.mk.injEq, Payload.statsSuccess.injEq] at hcore
  obtain ⟨hdb, ⟨hi, hu, hdl, ht, hf⟩, -⟩ := hcore
  exact ⟨h0, hrest, hh, hdb.symm, hi.symm, hu.symm, hdl.symm, ht.symm, hf.symm⟩

/-- Inversion of a successful `generate_statistics` call, deriving also the
resolved metadata ids and the bucket map. -/
theorem generate_statistics_success_full_inv {e : String} {clear : Bool} {db db' : DB}
    {i u dl t : Nat} {f : ℚ}
    (hrun : generate_statistics (some e) clear db = (db', .statsSuccess i u dl t f, 200)) :
    e ≠ "" ∧
    ∃ sid mid d, statsMetaId db e = some sid ∧ statesMetaId db e = some mid ∧
      buildHourly (filteredStates db mid) [] = some d ∧
      ∃ h0 hrest, hoursOf d = h0 :: hrest ∧
        db' = { db with
          statistics := (upsertHours sid d (h0 :: hrest)
            (gsPruned sid clear db h0 (h0 :: hrest)).1 0 0 0).1,
          statistics_short_term := stagedShort sid clear db } ∧
        i = (upsertHours sid d (h0 :: hrest) (gsPruned sid clear db h0 (h0 :: hrest)).1 0 0 0).2.1 ∧
        u = (upsertHours sid d (h0 :: hrest) (gsPruned sid clear db h0 (h0 :: hrest)).1 0 0 0).2.2.1 ∧
        dl = (gsPruned sid clear db h0 (h0 :: hrest)).2 ∧
        t = d.length ∧
        f = (upsertHours sid d (h0 :: hrest) (gsPruned sid clear db h0 (h0 :: hrest)).1 0 0 0).2.2.2 := by
  by_cases he : e = ""
  · subst he
    simp [generate_statistics, strFalsy] at hrun
  refine ⟨he, ?_⟩
  have hf : strFalsy (some e) = false := by simp [strFalsy, he]
  have hrun' := hrun
  rw [generate_statistics] at hrun'
  rw [hf] at hrun'
  simp only [Bool.false_eq_true, if_false, Option.getD_some] at hrun'
  cases hsid : statsMetaId db e with
  | none => rw [hsid] at hrun'; simp at hrun'
  | some sid =>
    rw [hsid] at hrun'
    cases hmid : statesMetaId db e with
    | none => rw [hmid] at hrun'; simp at hrun'
    | some mid =>
      rw [hmid] at hrun'
      by_cases hs : filteredStates db mid = []
      · simp only [gsCore] at hrun'
        rw [if_pos hs] at hrun'
        simp at hrun'
      cases hb : buildHourly (filteredStates db mid) [] with
      | none =>
        simp only [gsCore] at hrun'
        rw [if_neg hs, hb] at hrun'
        simp at hrun'
      | some d =>
        exact ⟨sid, mid, d, rfl, rfl, hb,
          generate_statistics_success_inv hsid hmid hb hrun⟩

/-! ## Claim C1: cumulative sums are prefix sums recomputed from zero -/

/-- C1: on every successful run of `generate_statistics`, the cumulative-sum
field written for each hour bucket equals the prefix sum, in ascending bucket
order, of the per-bucket point values starting from the earliest bucket of
this run's computation; the prefix sums are a function of the bucketed raw
readings `d` alone (recomputed from zero, never continued from a stored
total), and the cumulative total of the last bucket — also the reported
final sum — equals the sum of all per-bucket point values. -/
theorem generate_statistics_cumulative_prefix_sums
    (e : String) (clear : Bool) (db db' : DB) (ins upd del th : Nat) (fs : ℚ)
    (sid mid : Nat) (d : List (Int × ℚ))
    (hsid : statsMetaId db e = some sid) (hmid : statesMetaId db e = some mid)
    (hb : buildHourly (filteredStates db mid) [] = some d)
    (hrun : generate_statistics (some e) clear db
      = (db', .statsSuccess ins upd del th fs, 200)) :
    fs = ((hoursOf d).map (lookupD d)).sum ∧
    prefixWithin d (hoursOf d) (lastTs (hoursOf d)) = fs ∧
    ∀ h ∈ hoursOf d,
      (∃ r ∈ db'.statistics, r.metadata_id = sid ∧ r.start_ts = h) ∧
      (∀ r ∈ db'.statistics, r.metadata_id = sid → r.start_ts = h →
        r.state = some (lookupD d h) ∧ r.sum = some (prefixWithin d (hoursOf d) h)) := by
  obtain ⟨h0, hrest, hh, hdb, hi, hu, hdl, ht, hf⟩ :=
    generate_statistics_success_inv hsid hmid hb hrun
  have hnd : (d.map Prod.fst).Nodup := buildHourly_keys_nodup _ [] d (by simp) hb
  have hsort : (hoursOf d).Sorted (· < ·) := hoursOf_sorted_lt hnd
  have hfs : fs = ((hoursOf d).map (lookupD d)).sum := by
    rw [hf, upsertHours_cum, zero_add, hh]
  refine ⟨hfs, ?_, ?_⟩
  · have hfilter : (hoursOf d).filter (fun x => decide (x ≤ lastTs (hoursOf d)))
        = hoursOf d := by
      refine List.filter_eq_self.mpr fun x hx => ?_
      simpa using sorted_le_lastTs (hoursOf_sorted d) x hx
    rw [prefixWithin, hfilter, hfs]
  · rw [hdb, hh]
    intro h hm
    have hw := upsertHours_writes sid d (h0 :: hrest)
      (gsPruned sid clear db h0 (h0 :: hrest)).1 0 0 0 (hh ▸ hsort) h hm
    rw [zero_add] at hw
    exact hw

/-- `==` on `Int` is propositional-equality decision (used to let `simp`
evaluate the handlers on concrete stores). -/
theorem intBeq (a b : Int) : (a == b) = decide (a = b) := rfl

theorem pfloat_15 : pythonFloat "1.5" = some (3 / 2) := by with_unfolding_all decide

theorem pfloat_20 : pythonFloat "2.0" = some 2 := by with_unfolding_all decide

theorem pfloat_30 : pythonFloat "3.0" = some 3 := by with_unfolding_all decide

theorem creal_15 : castReal "1.5" = 3 / 2 := by with_unfolding_all decide

theorem creal_20 : castReal "2.0" = 2 := by with_unfolding_all decide

theorem creal_30 : castReal "3.0" = 3 := by with_unfolding_all decide

/-- The hourly grouping of `egDB`'s readings: the bucket of hour 0 keeps the
latest value `2.0`, the bucket of hour 3600 holds `3.0`. -/
theorem egDB_hourly : buildHourly (filteredStates egDB 1) [] = some [(0, 2), (3600, 3)] := by
  simp [filteredStates, sortStates, validState, buildHourly, dictUpsert, hourOf,
    Int.fdiv, egDB, List.insertionSort, List.orderedInsert, List.filter, intBeq,
    pfloat_15, pfloat_20, pfloat_30, creal_15, creal_20, creal_30]

/-- Aggregating `egDB` inserts the two bucket rows of `egOut`. -/
theorem egDB_run : generate_statistics (some "sensor.energy") false egDB
    = (egOut, .statsSuccess 2 0 0 2 5, 200) := by
  have hq1 : (0 : ℚ) + 2 = 2 := by with_unfolding_all decide
  have hq2 : (2 : ℚ) + 3 = 5 := by with_unfolding_all decide
  simp [generate_statistics, gsCore, statsMetaId, statesMetaId, strFalsy,
    filteredStates, sortStates, validState, buildHourly, dictUpsert, hoursOf,
    lookupD, keyMatch, upsertHours, gsPruned, stagedStats, stagedShort, isOrphan,
    lastTs, egDB, egOut, List.insertionSort, List.orderedInsert, List.find?,
    List.filter, List.any, hourOf, Int.fdiv, pfloat_15, pfloat_20, pfloat_30,
    creal_15, creal_20, creal_30, intBeq, hq1, hq2]

/-- Witness for C1 on the concrete store `egDB`. -/
theorem generate_statistics_cumulative_prefix_sums_witness :
    (statsMetaId egDB "sensor.energy" = some 7 ∧
     statesMetaId egDB "sensor.energy" = some 1 ∧
     buildHourly (filteredStates egDB 1) [] = some [(0, 2), (3600, 3)] ∧
     generate_statistics (some "sensor.energy") false egDB
       = (egOut, .statsSuccess 2 0 0 2 5, 200)) ∧
    ((5 : ℚ) = ((hoursOf [(0, 2), (3600, 3)]).map (lookupD [(0, 2), (3600, 3)])).sum ∧
     prefixWithin [(0, 2), (3600, 3)] (hoursOf [(0, 2), (3600, 3)])
       (lastTs (hoursOf [(0, 2), (3600, 3)])) = 5 ∧
     ∀ h ∈ hoursOf [(0, 2), (3600, 3)],
       (∃ r ∈ egOut.statistics, r.metadata_id = 7 ∧ r.start_ts = h) ∧
       (∀ r ∈ egOut.statistics, r.metadata_id = 7 → r.start_ts = h →
         r.state = some (lookupD [(0, 2), (3600, 3)] h) ∧
         r.sum = some (prefixWithin [(0, 2), (3600, 3)] (hoursOf [(0, 2), (3600, 3)]) h))) :=
  ⟨⟨by decide, by decide, egDB_hourly, egDB_run⟩,
   generate_statistics_cumulative_prefix_sums "sensor.energy" false egDB egOut 2 0 0 2 5
     7 1 [(0, 2), (3600, 3)] (by decide) (by decide) egDB_hourly egDB_run⟩

/-! ## Claim C2: aggregation is idempotent -/

/-- C2: running `generate_statistics` twice in succession with the same
entity and no intervening change to the raw readings leaves the database of
the first run unchanged (identical point values and cumulative values), and
the second run reports zero inserted rows, with every one of the `th` bucket
rows updated in place to the same values and the same final sum. -/
theorem generate_statistics_idempotent
    (e : String) (db db1 : DB) (ins upd del th : Nat) (fs : ℚ)
    (h1 : generate_statistics (some e) false db
      = (db1, .statsSuccess ins upd del th fs, 200)) :
    generate_statistics (some e) false db1
      = (db1, .statsSuccess 0 th 0 th fs, 200) := by
  obtain ⟨he, sid, mid, d, hsid, hmid, hb,
    h0, hrest, hh, hdb1, hi, hu, hdl, ht, hf⟩ :=
    generate_statistics_success_full_inv h1
  have hnd : (d.map Prod.fst).Nodup := buildHourly_keys_nodup _ [] d (by simp) hb
  have hsort : (h0 :: hrest).Sorted (· < ·) := hh ▸ hoursOf_sorted_lt hnd
  -- components of db1
  have hT1 : db1.statistics = (upsertHours sid d (h0 :: hrest)
      (gsPruned sid false db h0 (h0 :: hrest)).1 0 0 0).1 := by rw [hdb1]
  have hstates1 : db1.states = db.states := by rw [hdb1]
  have hmeta1 : db1.statistics_meta = db.statistics_meta := by rw [hdb1]
  have hsmeta1 : db1.states_meta = db.states_meta := by rw [hdb1]
  have hshort1 : db1.statistics_short_term = db.statistics_short_term := by
    rw [hdb1]
    simp [stagedShort]
  -- resolution and the bucket map are unchanged on the second run
  have hsid1 : statsMetaId db1 e = some sid := by
    rw [statsMetaId, hmeta1]
    exact hsid
  have hmid1 : statesMetaId db1 e = some mid := by
    rw [statesMetaId, hsmeta1]
    exact hmid
  have hb1 : buildHourly (filteredStates db1 mid) [] = some d := by
    rw [filteredStates, hstates1]
    exact hb
  -- every bucket row of db1 already carries the recomputed values
  have hwrites : ∀ h ∈ h0 :: hrest,
      writtenAt db1.statistics sid h (lookupD d h)
        (0 + prefixWithin d (h0 :: hrest) h) := by
    intro h hm
    rw [hT1]
    exact upsertHours_writes sid d (h0 :: hrest) _ 0 0 0 hsort h hm
  -- no row of db1 is an orphan for this run
  have horphan : ∀ r ∈ db1.statistics,
      isOrphan sid h0 (lastTs (h0 :: hrest)) (h0 :: hrest) r = false := by
    intro r hr
    rw [hT1] at hr
    rcases upsertHours_origin sid d (h0 :: hrest) _ 0 0 0 r hr with hP | ⟨hm, hts⟩
    · have hPd : (gsPruned sid false db h0 (h0 :: hrest)).1
          = (stagedStats sid false db).filter
            (fun r => !(isOrphan sid h0 (lastTs (h0 :: hrest)) (h0 :: hrest) r)) := by
        simp [gsPruned]
      rw [hPd] at hP
      simpa using List.of_mem_filter hP
    · simp [isOrphan]
      intro _ _ _ hne
      rcases List.mem_cons.mp hts with heq | hmem
      · exact absurd heq hne
      · exact hmem
  -- orphan pruning deletes nothing on the second run
  have hfe : db1.statistics.filter
      (fun r => !(isOrphan sid h0 (lastTs (h0 :: hrest)) (h0 :: hrest) r))
      = db1.statistics := by
    refine List.filter_eq_self.mpr fun r hr => ?_
    simp [horphan r hr]
  have hprune1 : gsPruned sid false db1 h0 (h0 :: hrest) = (db1.statistics, 0) := by
    simp [gsPruned, stagedStats, hfe]
  -- the walk is a fixpoint on db1
  have hfix : upsertHours sid d (h0 :: hrest) db1.statistics 0 0 0
      = (db1.statistics, 0, 0 + (h0 :: hrest).length,
         0 + ((h0 :: hrest).map (lookupD d)).sum) :=
    upsertHours_fixpoint sid d (h0 :: hrest) db1.statistics 0 0 0 hsort hwrites
  -- counters and final value
  have hlen : (h0 :: hrest).length = d.length := by
    rw [← hh, hoursOf_length]
  have hfs : fs = 0 + ((h0 :: hrest).map (lookupD d)).sum := by
    rw [hf, upsertHours_cum]
  rw [generate_statistics_run hsid1 hmid1 he, gsCore_run hb1 hh]
  rw [hprune1]
  simp only [hfix, hlen, ht, hfs, Nat.zero_add]
  simp [stagedShort]

/-- Witness for C2: re-aggregating `egOut` updates both rows in place,
inserts nothing and reproduces the same store and final sum. -/
theorem generate_statistics_idempotent_witness :
    generate_statistics (some "sensor.energy") false egDB
      = (egOut, .statsSuccess 2 0 0 2 5, 200) ∧
    generate_statistics (some "sensor.energy") false egOut
      = (egOut, .statsSuccess 0 2 0 2 5, 200) :=
  ⟨egDB_run, generate_statistics_idempotent "sensor.energy" egDB egOut 2 0 0 2 5 egDB_run⟩

/-! ## Claim C4: the worked bucketing example (sum vs latest policy) -/

/-- C4 counterexample: aggregating the raw readings
`{t=0: "1.5", t=1800: "2.0", t=3700: "3.0"}` does NOT give bucket 0 the
summed point value 3.5 with cumulative 3.5 and final cumulative 6.5; the run
writes point value 2 (the latest same-hour reading) with cumulative 2 into
bucket 0, and the final cumulative is 5, not 6.5. -/
theorem generate_statistics_sum_policy_counterexample :
    generate_statistics (some "sensor.energy") false egDB
      = (egOut, .statsSuccess 2 0 0 2 5, 200) ∧
    (∃ r ∈ egOut.statistics, r.metadata_id = 7 ∧ r.start_ts = 0 ∧
      r.state = some 2 ∧ r.sum = some 2) ∧
    (∀ r ∈ egOut.statistics, ¬(r.start_ts = 0 ∧ r.state = some (7 / 2))) ∧
    (5 : ℚ) ≠ 13 / 2 :=
  ⟨egDB_run,
   ⟨{ metadata_id := 7, start_ts := 0, created_ts := 0, state := some 2, sum := some 2 },
    List.mem_cons_self _ _, rfl, rfl, rfl, rfl⟩,
   by with_unfolding_all decide,
   by with_unfolding_all decide⟩

/-- C4 (amended): aggregating the raw readings
`{t=0s: "1.5", t=1800s: "2.0", t=3700s: "3.0"}` produces exactly two hour
buckets — bucket 0 with point value 2.0 (the chronologically latest reading
of that hour) and cumulative sum 2.0, and bucket 3600 with point value 3.0
and cumulative sum 5.0: multiple readings falling in the same hour bucket
are collapsed by keeping the latest value, not by summing. -/
theorem generate_statistics_latest_value_example :
    generate_statistics (some "sensor.energy") false egDB
      = (egOut, .statsSuccess 2 0 0 2 5, 200) ∧
    egOut.statistics =
      [ { metadata_id := 7, start_ts := 0, created_ts := 0,
          state := some 2, sum := some 2 },
        { metadata_id := 7, start_ts := 3600, created_ts := 3600,
          state := some 3, sum := some 5 } ] :=
  ⟨egDB_run, rfl⟩

/-! ## Claim C7: orphan pruning deletes exactly the in-range stale keys -/

/-- C7: on a successful `generate_statistics` run without the clear-existing
flag, exactly those pre-existing rows of the target series are deleted whose
bucket lies inside `[earliest, latest]` of the computed buckets without being
one of them: such keys are absent afterwards, every other pre-existing key of
the series is still present, rows of the series outside the interval survive
untouched (same values), and rows of every other series are exactly
preserved. -/
theorem generate_statistics_orphan_pruning
    (e : String) (db db' : DB) (ins upd del th : Nat) (fs : ℚ)
    (sid mid : Nat) (d : List (Int × ℚ))
    (hsid : statsMetaId db e = some sid) (hmid : statesMetaId db e = some mid)
    (hb : buildHourly (filteredStates db mid) [] = some d)
    (hrun : generate_statistics (some e) false db
      = (db', .statsSuccess ins upd del th fs, 200)) :
    (db'.statistics.filter (fun r => !(r.metadata_id == sid))
      = db.statistics.filter (fun r => !(r.metadata_id == sid))) ∧
    (∀ r ∈ db.statistics, r.metadata_id = sid →
      (hoursOf d).headD 0 ≤ r.start_ts → r.start_ts ≤ lastTs (hoursOf d) →
      r.start_ts ∉ hoursOf d →
      ∀ r' ∈ db'.statistics, ¬(r'.metadata_id = sid ∧ r'.start_ts = r.start_ts)) ∧
    (∀ r ∈ db.statistics, r.metadata_id = sid →
      ¬((hoursOf d).headD 0 ≤ r.start_ts ∧ r.start_ts ≤ lastTs (hoursOf d) ∧
        r.start_ts ∉ hoursOf d) →
      ∃ r' ∈ db'.statistics, r'.metadata_id = sid ∧ r'.start_ts = r.start_ts) ∧
    (∀ r ∈ db.statistics, r.metadata_id = sid →
      (r.start_ts < (hoursOf d).headD 0 ∨ lastTs (hoursOf d) < r.start_ts) →
      r ∈ db'.statistics) := by
  obtain ⟨h0, hrest, hh, hdb, hi, hu, hdl, ht, hf⟩ :=
    generate_statistics_success_inv hsid hmid hb hrun
  have hnd : (d.map Prod.fst).Nodup := buildHourly_keys_nodup _ [] d (by simp) hb
  have hsort : (h0 :: hrest).Sorted (· < ·) := hh ▸ hoursOf_sorted_lt hnd
  have hhead : (hoursOf d).headD 0 = h0 := by rw [hh]; rfl
  have hP : (gsPruned sid false db h0 (h0 :: hrest)).1
      = db.statistics.filter
        (fun r => !(isOrphan sid h0 (lastTs (h0 :: hrest)) (h0 :: hrest) r)) := by
    simp [gsPruned, stagedStats]
  have hbound : ∀ x ∈ hoursOf d, h0 ≤ x ∧ x ≤ lastTs (hoursOf d) := by
    intro x hx
    constructor
    · exact sorted_head_le (hh ▸ hoursOf_sorted d) (hh ▸ hx)
    · exact sorted_le_lastTs (hoursOf_sorted d) x hx
  have hT1 : db'.statistics = (upsertHours sid d (h0 :: hrest)
      (gsPruned sid false db h0 (h0 :: hrest)).1 0 0 0).1 := by rw [hdb]
  refine ⟨?_, ?_, ?_, ?_⟩
  · -- other series untouched
    rw [hT1, upsertHours_frame, hP, List.filter_filter]
    refine List.filter_congr fun r _ => ?_
    by_cases hm : r.metadata_id = sid
    · simp [hm]
    · simp [hm, isOrphan]
  · -- orphan keys are gone
    intro r _ hm hge hle hnin r' hr' ⟨hm', ht'⟩
    rw [hT1] at hr'
    rcases upsertHours_origin sid d (h0 :: hrest) _ 0 0 0 r' hr' with hPm | ⟨_, hts⟩
    · rw [hP] at hPm
      have hOK := List.of_mem_filter hPm
      have hnin' : r.start_ts ∉ h0 :: hrest := hh ▸ hnin
      have : isOrphan sid h0 (lastTs (h0 :: hrest)) (h0 :: hrest) r' = true := by
        simp [isOrphan, hm', ht', hhead ▸ hge, hh ▸ hle]
        exact ⟨fun heq => hnin' (by rw [heq]; exact List.mem_cons_self h0 hrest),
               fun hmem => hnin' (List.mem_cons_of_mem h0 hmem)⟩
      rw [this] at hOK
      simp at hOK
    · rw [ht'] at hts
      exact hnin (hh ▸ hts)
  · -- non-orphan keys survive
    intro r hr hm hcond
    by_cases hin : r.start_ts ∈ hoursOf d
    · have hw := upsertHours_writes sid d (h0 :: hrest)
        (gsPruned sid false db h0 (h0 :: hrest)).1 0 0 0 hsort r.start_ts (hh ▸ hin)
      obtain ⟨⟨r', hr', hm', ht'⟩, -⟩ := hw
      exact ⟨r', hT1 ▸ hr', hm', ht'⟩
    · have hout : r.start_ts < h0 ∨ lastTs (h0 :: hrest) < r.start_ts := by
        by_contra hno
        push_neg at hno
        exact hcond ⟨hhead ▸ hno.1, hh ▸ hno.2, hin⟩
      have : r ∈ db'.statistics := by
        rw [hT1]
        refine upsertHours_keeps sid d (h0 :: hrest) _ 0 0 0 r ?_ ?_
        · rw [hP]
          refine List.mem_filter.mpr ⟨hr, ?_⟩
          have : isOrphan sid h0 (lastTs (h0 :: hrest)) (h0 :: hrest) r = false := by
            rcases hout with hlt | hgt
            · simp [isOrphan, not_le.mpr hlt]
            · simp [isOrphan, not_le.mpr hgt]
          simp [this]
        · intro ⟨_, hts⟩
          have := hbound r.start_ts (hh ▸ hts)
          rcases hout with hlt | hgt
          · exact absurd this.1 (not_le.mpr hlt)
          · exact absurd this.2 (by rw [hh]; exact not_le.mpr hgt)
      exact ⟨r, this, hm, rfl⟩
  · -- out-of-range rows of the series survive with their values
    intro r hr hm hout
    rw [hT1]
    refine upsertHours_keeps sid d (h0 :: hrest) _ 0 0 0 r ?_ ?_
    · rw [hP]
      refine List.mem_filter.mpr ⟨hr, ?_⟩
      have : isOrphan sid h0 (lastTs (h0 :: hrest)) (h0 :: hrest) r = false := by
        rcases hout with hlt | hgt
        · rw [hhead] at hlt
          simp [isOrphan, not_le.mpr hlt]
        · rw [hh] at hgt
          simp [isOrphan, not_le.mpr hgt]
      simp [this]
    · intro ⟨_, hts⟩
      have := hbound r.start_ts (hh ▸ hts)
      rcases hout with hlt | hgt
      · exact absurd this.1 (not_le.mpr (hhead ▸ hlt))
      · exact absurd this.2 (not_le.mpr hgt)

theorem c7DB_hourly : buildHourly (filteredStates c7DB 1) [] = some [(0, 2), (3600, 3)] :=
  egDB_hourly

/-- Aggregating `c7DB` prunes the stale row at 1800 and keeps the others. -/
theorem c7DB_run : generate_statistics (some "sensor.energy") false c7DB
    = (c7Out, .statsSuccess 2 0 1 2 5, 200) := by
  have hq1 : (0 : ℚ) + 2 = 2 := by with_unfolding_all decide
  have hq2 : (2 : ℚ) + 3 = 5 := by with_unfolding_all decide
  simp [generate_statistics, gsCore, statsMetaId, statesMetaId, strFalsy,
    filteredStates, sortStates, validState, buildHourly, dictUpsert, hoursOf,
    lookupD, keyMatch, upsertHours, gsPruned, stagedStats, stagedShort, isOrphan,
    lastTs, c7DB, c7Out, egDB, List.insertionSort, List.orderedInsert, List.find?,
    List.filter, List.any, hourOf, Int.fdiv, pfloat_15, pfloat_20, pfloat_30,
    creal_15, creal_20, creal_30, intBeq, hq1, hq2]

/-- Witness for C7 on the concrete store `c7DB`. -/
theorem generate_statistics_orphan_pruning_witness :
    (statsMetaId c7DB "sensor.energy" = some 7 ∧
     statesMetaId c7DB "sensor.energy" = some 1 ∧
     buildHourly (filteredStates c7DB 1) [] = some [(0, 2), (3600, 3)] ∧
     generate_statistics (some "sensor.energy") false c7DB
       = (c7Out, .statsSuccess 2 0 1 2 5, 200)) ∧
    ((c7Out.statistics.filter (fun r => !(r.metadata_id == 7))
       = c7DB.statistics.filter (fun r => !(r.metadata_id == 7))) ∧
     (∀ r ∈ c7DB.statistics, r.metadata_id = 7 →
       (hoursOf [(0, 2), (3600, 3)]).headD 0 ≤ r.start_ts →
       r.start_ts ≤ lastTs (hoursOf [(0, 2), (3600, 3)]) →
       r.start_ts ∉ hoursOf [(0, 2), (3600, 3)] →
       ∀ r' ∈ c7Out.statistics, ¬(r'.metadata_id = 7 ∧ r'.start_ts = r.start_ts)) ∧
     (∀ r ∈ c7DB.statistics, r.metadata_id = 7 →
       ¬((hoursOf [(0, 2), (3600, 3)]).headD 0 ≤ r.start_ts ∧
         r.start_ts ≤ lastTs (hoursOf [(0, 2), (3600, 3)]) ∧
         r.start_ts ∉ hoursOf [(0, 2), (3600, 3)]) →
       ∃ r' ∈ c7Out.statistics, r'.metadata_id = 7 ∧ r'.start_ts = r.start_ts) ∧
     (∀ r ∈ c7DB.statistics, r.metadata_id = 7 →
       (r.start_ts < (hoursOf [(0, 2), (3600, 3)]).headD 0 ∨
        lastTs (hoursOf [(0, 2), (3600, 3)]) < r.start_ts) →
       r ∈ c7Out.statistics)) :=
  ⟨⟨by decide, by decide, c7DB_hourly, c7DB_run⟩,
   generate_statistics_orphan_pruning "sensor.energy" c7DB c7Out 2 0 1 2 5
     7 1 [(0, 2), (3600, 3)] (by decide) (by decide) c7DB_hourly c7DB_run⟩

/-! ## The cost walk: characterization lemmas -/

theorem valuedKeys_subset_keys :
    ∀ (rows : List (Int × Option ℚ)) (x : Int), x ∈ valuedKeys rows → x ∈ rows.map Prod.fst
  | [], x, hx => absurd hx (List.not_mem_nil x)
  | (t, none) :: rest, x, hx =>
    List.mem_cons_of_mem _ (valuedKeys_subset_keys rest x hx)
  | (t, some v) :: rest, x, hx => by
    rcases List.mem_cons.mp hx with rfl | hx'
    · exact List.mem_cons_self _ _
    · exact List.mem_cons_of_mem _ (valuedKeys_subset_keys rest x hx')

/-- The final running cost equals the start value plus rate times the sum of
the non-NULL energy values. -/
theorem costLoop_cum (cid : Nat) (rate : ℚ) :
    ∀ (rows : List (Int × Option ℚ)) (tbl : List StatRow) (ins upd : Nat) (cum : ℚ),
      (costLoop cid rate rows tbl ins upd cum).2.2.2
        = cum + (rows.filterMap Prod.snd).sum * rate
  | [], tbl, ins, upd, cum => by simp [costLoop]
  | (ts, none) :: rest, tbl, ins, upd, cum => by
    rw [costLoop, costLoop_cum cid rate rest]
    simp
  | (ts, some v) :: rest, tbl, ins, upd, cum => by
    by_cases hc : tbl.any (fun r => keyMatch r cid ts) = true
    · rw [costLoop, if_pos hc, costLoop_cum cid rate rest]
      simp [add_mul, add_assoc]
    · rw [costLoop, if_neg hc, costLoop_cum cid rate rest]
      simp [add_mul, add_assoc]

/-- Buckets not written by the cost walk keep their written point value. -/
theorem costLoop_preserves (cid : Nat) (rate : ℚ) {ts : Int} {v : ℚ} :
    ∀ (rows : List (Int × Option ℚ)) (tbl : List StatRow) (ins upd : Nat) (cum : ℚ),
      ts ∉ rows.map Prod.fst → costWrittenAt tbl cid ts v →
      costWrittenAt (costLoop cid rate rows tbl ins upd cum).1 cid ts v
  | [], tbl, ins, upd, cum, _, hw => by simpa [costLoop] using hw
  | (t0, none) :: rest, tbl, ins, upd, cum, hnm, hw => by
    rw [costLoop]
    exact costLoop_preserves cid rate rest tbl ins upd cum
      (fun hm => hnm (List.mem_cons_of_mem _ hm)) hw
  | (t0, some v0) :: rest, tbl, ins, upd, cum, hnm, hw => by
    have hne : ts ≠ t0 := fun he => hnm (he ▸ List.mem_cons_self t0 _)
    have hnm' : ts ∉ rest.map Prod.fst := fun hm => hnm (List.mem_cons_of_mem _ hm)
    obtain ⟨⟨r0, hr0, hr0m, hr0t⟩, hall⟩ := hw
    by_cases hc : tbl.any (fun r => keyMatch r cid t0) = true
    · rw [costLoop, if_pos hc]
      refine costLoop_preserves cid rate rest _ ins (upd + 1) _ hnm' ?_
      constructor
      · refine ⟨if keyMatch r0 cid t0 then
          { r0 with state := some (v0 * rate), sum := some (cum + v0 * rate) } else r0,
          List.mem_map_of_mem _ hr0, ?_⟩
        by_cases hk : keyMatch r0 cid t0 = true
        · simp [hk, hr0m, hr0t]
        · simp [Bool.eq_false_iff.mpr hk, hr0m, hr0t]
      · intro r' hr' hm' ht'
        obtain ⟨r1, hr1, hfr1⟩ := List.mem_map.mp hr'
        by_cases hk : keyMatch r1 cid t0 = true
        · exfalso
          rw [if_pos hk] at hfr1
          have : r'.start_ts = r1.start_ts := by rw [← hfr1]
          rw [ht'] at this
          exact hne (this.trans (keyMatch_iff.mp hk).2)
        · rw [if_neg (by simpa using hk)] at hfr1
          exact hall r' (hfr1 ▸ hr1) hm' ht'
    · rw [costLoop, if_neg hc]
      refine costLoop_preserves cid rate rest _ (ins + 1) upd _ hnm' ?_
      constructor
      · exact ⟨r0, List.mem_append_left _ hr0, hr0m, hr0t⟩
      · intro r' hr' hm' ht'
        rcases List.mem_append.mp hr' with hr'' | hr''
        · exact hall r' hr'' hm' ht'
        · exfalso
          rcases List.mem_singleton.mp hr'' with rfl
          exact hne ht'.symm

/-- After the cost walk, every non-NULL energy bucket's cost row carries
rate times the energy value. -/
theorem costLoop_writes (cid : Nat) (rate : ℚ) :
    ∀ (rows : List (Int × Option ℚ)) (tbl : List StatRow) (ins upd : Nat) (cum : ℚ),
      (rows.map Prod.fst).Nodup → ∀ ts v, (ts, some v) ∈ rows →
      costWrittenAt (costLoop cid rate rows tbl ins upd cum).1 cid ts (v * rate)
  | [], tbl, ins, upd, cum, _, ts, v, hmem => absurd hmem (List.not_mem_nil _)
  | (t0, ov0) :: rest, tbl, ins, upd, cum, hnd, ts, v, hmem => by
    have hnd' : (rest.map Prod.fst).Nodup := by
      rw [List.map_cons] at hnd
      exact hnd.of_cons
    have hhead : t0 ∉ rest.map Prod.fst := by
      rw [List.map_cons] at hnd
      exact List.Nodup.not_mem hnd
    rcases List.mem_cons.mp hmem with heq | hmem'
    · -- the head is the valued bucket (ts, some v)
      have ht0 : t0 = ts := by cases heq; rfl
      have hov : ov0 = some v := by cases heq; rfl
      subst ht0
      subst hov
      by_cases hc : tbl.any (fun r => keyMatch r cid t0) = true
      · rw [costLoop, if_pos hc]
        refine costLoop_preserves cid rate rest _ ins (upd + 1) _ hhead ?_
        obtain ⟨r0, hr0, hk0⟩ := List.any_eq_true.mp hc
        constructor
        · refine ⟨{ r0 with state := some (v * rate), sum := some (cum + v * rate) },
            ?_, (keyMatch_iff.mp hk0).1, (keyMatch_iff.mp hk0).2⟩
          exact List.mem_map.mpr ⟨r0, hr0, by simp [hk0]⟩
        · intro r' hr' hm' ht'
          obtain ⟨r1, hr1, hfr1⟩ := List.mem_map.mp hr'
          by_cases hk : keyMatch r1 cid t0 = true
          · rw [if_pos hk] at hfr1
            rw [← hfr1]
          · rw [if_neg (by simpa using hk)] at hfr1
            exact absurd (keyMatch_iff.mpr ⟨hfr1 ▸ hm', hfr1 ▸ ht'⟩) (by simpa using hk)
      · rw [costLoop, if_neg hc]
        refine costLoop_preserves cid rate rest _ (ins + 1) upd _ hhead ?_
        have hall : ∀ r ∈ tbl, keyMatch r cid t0 = false := by
          intro r hr
          cases hb : keyMatch r cid t0 with
          | false => rfl
          | true => exact absurd (List.any_eq_true.mpr ⟨r, hr, hb⟩) hc
        constructor
        · exact ⟨_, List.mem_append_right tbl (List.mem_singleton_self _), rfl, rfl⟩
        · intro r' hr' hm' ht'
          rcases List.mem_append.mp hr' with hr'' | hr''
          · exact absurd (keyMatch_iff.mpr ⟨hm', ht'⟩) (by simpa using hall r' hr'')
          · rcases List.mem_singleton.mp hr'' with rfl
            rfl
    · -- a later bucket
      cases ov0 with
      | none =>
        rw [costLoop]
        exact costLoop_writes cid rate rest tbl ins upd cum hnd' ts v hmem'
      | some v0 =>
        by_cases hc : tbl.any (fun r => keyMatch r cid t0) = true
        · rw [costLoop, if_pos hc]
          exact costLoop_writes cid rate rest _ ins (upd + 1) _ hnd' ts v hmem'
        · rw [costLoop, if_neg hc]
          exact costLoop_writes cid rate rest _ (ins + 1) upd _ hnd' ts v hmem'

/-- Every row after the cost walk either was already staged or is a cost row
at a non-NULL energy bucket. -/
theorem costLoop_origin (cid : Nat) (rate : ℚ) :
    ∀ (rows : List (Int × Option ℚ)) (tbl : List StatRow) (ins upd : Nat) (cum : ℚ)
      (r : StatRow), r ∈ (costLoop cid rate rows tbl ins upd cum).1 →
      r ∈ tbl ∨ (r.metadata_id = cid ∧ r.start_ts ∈ valuedKeys rows)
  | [], tbl, ins, upd, cum, r, hr => Or.inl (by simpa [costLoop] using hr)
  | (t0, none) :: rest, tbl, ins, upd, cum, r, hr => by
    rw [costLoop] at hr
    rcases costLoop_origin cid rate rest tbl ins upd cum r hr with h1 | h2
    · exact Or.inl h1
    · exact Or.inr ⟨h2.1, h2.2⟩
  | (t0, some v0) :: rest, tbl, ins, upd, cum, r, hr => by
    have hsub : r.start_ts ∈ valuedKeys rest →
        r.start_ts ∈ valuedKeys ((t0, some v0) :: rest) :=
      fun h => List.mem_cons_of_mem t0 h
    by_cases hc : tbl.any (fun r => keyMatch r cid t0) = true
    · rw [costLoop, if_pos hc] at hr
      rcases costLoop_origin cid rate rest _ ins (upd + 1) _ r hr with h1 | h2
      · obtain ⟨r1, hr1, hfr1⟩ := List.mem_map.mp h1
        by_cases hk : keyMatch r1 cid t0 = true
        · rw [if_pos hk] at hfr1
          refine Or.inr ⟨?_, ?_⟩
          · rw [← hfr1]
            exact (keyMatch_iff.mp hk).1
          · rw [← hfr1]
            show r1.start_ts ∈ valuedKeys ((t0, some v0) :: rest)
            rw [(keyMatch_iff.mp hk).2]
            exact List.mem_cons_self _ _
        · rw [if_neg (by simpa using hk)] at hfr1
          exact Or.inl (hfr1 ▸ hr1)
      · exact Or.inr ⟨h2.1, hsub h2.2⟩
    · rw [costLoop, if_neg hc] at hr
      rcases costLoop_origin cid rate rest _ (ins + 1) upd _ r hr with h1 | h2
      · rcases List.mem_append.mp h1 with hr'' | hr''
        · exact Or.inl hr''
        · rcases List.mem_singleton.mp hr'' with rfl
          exact Or.inr ⟨rfl, List.mem_cons_self _ _⟩
      · exact Or.inr ⟨h2.1, hsub h2.2⟩

/-- Rows whose key is no non-NULL energy bucket pass through the cost walk
untouched. -/
theorem costLoop_keeps (cid : Nat) (rate : ℚ) :
    ∀ (rows : List (Int × Option ℚ)) (tbl : List StatRow) (ins upd : Nat) (cum : ℚ)
      (r : StatRow), r ∈ tbl → ¬(r.metadata_id = cid ∧ r.start_ts ∈ valuedKeys rows) →
      r ∈ (costLoop cid rate rows tbl ins upd cum).1
  | [], tbl, ins, upd, cum, r, hr, _ => by simpa [costLoop] using hr
  | (t0, none) :: rest, tbl, ins, upd, cum, r, hr, hcond => by
    rw [costLoop]
    refine costLoop_keeps cid rate rest tbl ins upd cum r hr ?_
    intro ⟨hm, hts⟩
    exact hcond ⟨hm, hts⟩
  | (t0, some v0) :: rest, tbl, ins, upd, cum, r, hr, hcond => by
    have hcond' : ¬(r.metadata_id = cid ∧ r.start_ts ∈ valuedKeys rest) := by
      intro ⟨hm, hts⟩
      exact hcond ⟨hm, List.mem_cons_of_mem t0 hts⟩
    have hk : keyMatch r cid t0 = false := by
      refine keyMatch_false fun ⟨hm, ht⟩ => ?_
      refine hcond ⟨hm, ?_⟩
      show r.start_ts ∈ valuedKeys ((t0, some v0) :: rest)
      rw [ht]
      exact List.mem_cons_self _ _
    by_cases hc : tbl.any (fun r => keyMatch r cid t0) = true
    · rw [costLoop, if_pos hc]
      exact costLoop_keeps cid rate rest _ ins (upd + 1) _ r
        (List.mem_map.mpr ⟨r, hr, by simp [hk]⟩) hcond'
    · rw [costLoop, if_neg hc]
      exact costLoop_keeps cid rate rest _ (ins + 1) upd _ r
        (List.mem_append_left _ hr) hcond'

/-- The cost walk does not touch rows of other series. -/
theorem costLoop_frame (cid : Nat) (rate : ℚ) :
    ∀ (rows : List (Int × Option ℚ)) (tbl : List StatRow) (ins upd : Nat) (cum : ℚ),
      ((costLoop cid rate rows tbl ins upd cum).1).filter (fun r => !(r.metadata_id == cid))
        = tbl.filter (fun r => !(r.metadata_id == cid))
  | [], tbl, ins, upd, cum => by simp [costLoop]
  | (t0, none) :: rest, tbl, ins, upd, cum => by
    rw [costLoop, costLoop_frame cid rate rest]
  | (t0, some v0) :: rest, tbl, ins, upd, cum => by
    by_cases hc : tbl.any (fun r => keyMatch r cid t0) = true
    · rw [costLoop, if_pos hc, costLoop_frame cid rate rest]
      refine filter_map_eq_filter ?_ ?_ tbl
      · intro r hp
        have hm : r.metadata_id ≠ cid := by simpa using hp
        rw [if_neg (by simp [keyMatch_false fun hx => hm hx.1])]
      · intro r
        by_cases hk : keyMatch r cid t0 = true
        · rw [if_pos hk]
        · rw [if_neg (by simpa using hk)]
    · rw [costLoop, if_neg hc, costLoop_frame cid rate rest, List.filter_append]
      simp

/-- When the staged table holds no cost row at any non-NULL energy bucket,
the cost walk only inserts: it appends one fresh cost row per such bucket. -/
theorem costLoop_fresh (cid : Nat) (rate : ℚ) :
    ∀ (rows : List (Int × Option ℚ)) (tbl : List StatRow) (ins upd : Nat) (cum : ℚ),
      (rows.map Prod.fst).Nodup →
      (∀ r ∈ tbl, r.metadata_id = cid → r.start_ts ∉ valuedKeys rows) →
      costLoop cid rate rows tbl ins upd cum
        = (tbl ++ freshCostRows cid rate rows cum, ins + (valuedKeys rows).length, upd,
           cum + (rows.filterMap Prod.snd).sum * rate)
  | [], tbl, ins, upd, cum, _, _ => by simp [costLoop, freshCostRows, valuedKeys]
  | (t0, none) :: rest, tbl, ins, upd, cum, hnd, hkeys => by
    rw [costLoop, costLoop_fresh cid rate rest tbl ins upd cum
      (by rw [List.map_cons] at hnd; exact hnd.of_cons)
      (fun r hr hm hts => hkeys r hr hm hts)]
    rfl
  | (t0, some v0) :: rest, tbl, ins, upd, cum, hnd, hkeys => by
    have hnd' : (rest.map Prod.fst).Nodup := by
      rw [List.map_cons] at hnd
      exact hnd.of_cons
    have hhead : t0 ∉ rest.map Prod.fst := by
      rw [List.map_cons] at hnd
      exact List.Nodup.not_mem hnd
    have hc : tbl.any (fun r => keyMatch r cid t0) = false := by
      cases hb : tbl.any (fun r => keyMatch r cid t0) with
      | false => rfl
      | true =>
        obtain ⟨r, hr, hk⟩ := List.any_eq_true.mp hb
        refine absurd ?_ (hkeys r hr (keyMatch_iff.mp hk).1)
        show r.start_ts ∈ valuedKeys ((t0, some v0) :: rest)
        rw [(keyMatch_iff.mp hk).2]
        exact List.mem_cons_self _ _
    rw [costLoop, if_neg (by simp [hc])]
    have hkeys' : ∀ r ∈ tbl ++ [({ metadata_id := cid, start_ts := t0,
                                   created_ts := t0, state := some (v0 * rate),
                                   sum := some (cum + v0 * rate) } : StatRow)],
        r.metadata_id = cid → r.start_ts ∉ valuedKeys rest := by
      intro r hr hm
      rcases List.mem_append.mp hr with hr' | hr'
      · intro hts
        exact hkeys r hr' hm (List.mem_cons_of_mem t0 hts)
      · rcases List.mem_singleton.mp hr' with rfl
        intro hts
        exact hhead (valuedKeys_subset_keys rest _ hts)
    rw [costLoop_fresh cid rate rest _ (ins + 1) upd _ hnd' hkeys']
    simp [freshCostRows, valuedKeys, List.append_assoc, add_mul, add_assoc,
      add_comm, add_left_comm]

/-! ## Running `generate_cost_statistics`: inversion of the success path -/

/-- Computing `gcsCore` on the success path. -/
theorem gcsCore_run {eid cid : Nat} {rate : RateParam} {clear : Bool} {db : DB}
    {rateV : ℚ} {t0 : Int} {v0 : Option ℚ} {erest : List (Int × Option ℚ)}
    (hrr : rateOf eid cid rate (stagedStats cid clear db) = .ok rateV)
    (hes : energyRows (stagedStats cid clear db) eid = (t0, v0) :: erest) :
    gcsCore eid cid rate clear db =
      ({ db with
          statistics := (costLoop cid rateV ((t0, v0) :: erest)
            (gsPruned cid clear db t0 (((t0, v0) :: erest).map Prod.fst)).1 0 0 0).1,
          statistics_short_term := stagedShort cid clear db },
        .costSuccess
          (costLoop cid rateV ((t0, v0) :: erest)
            (gsPruned cid clear db t0 (((t0, v0) :: erest).map Prod.fst)).1 0 0 0).2.1
          (costLoop cid rateV ((t0, v0) :: erest)
            (gsPruned cid clear db t0 (((t0, v0) :: erest).map Prod.fst)).1 0 0 0).2.2.1
          ((t0, v0) :: erest).length
          (costLoop cid rateV ((t0, v0) :: erest)
            (gsPruned cid clear db t0 (((t0, v0) :: erest).map Prod.fst)).1 0 0 0).2.2.2
          rateV,
        200) := by
  simp only [gcsCore]
  rw [hrr]
  simp only [hes]

/-- Parameter handling and metadata resolution of `generate_cost_statistics`. -/
theorem generate_cost_statistics_run {ee ce : String} {rate : RateParam}
    {clear : Bool} {db : DB} {eid cid : Nat}
    (heid : statsMetaId db ee = some eid) (hcid : statsMetaId db ce = some cid)
    (hee : ee ≠ "") (hce : ce ≠ "") :
    generate_cost_statistics (some ee) (some ce) rate clear db
      = gcsCore eid cid rate clear db := by
  have hf1 : strFalsy (some ee) = false := by simp [strFalsy, hee]
  have hf2 : strFalsy (some ce) = false := by simp [strFalsy, hce]
  simp only [generate_cost_statistics, hf1, hf2, Bool.or_false, Bool.false_eq_true,
    if_false, Option.getD_some]
  rw [heid, hcid]

/-- Inversion of a successful `generate_cost_statistics` call. -/
theorem generate_cost_statistics_success_inv {ee ce : String} {rate : RateParam}
    {clear : Bool} {db db' : DB} {i u t : Nat} {tc ru : ℚ} {eid cid : Nat}
    (heid : statsMetaId db ee = some eid) (hcid : statsMetaId db ce = some cid)
    (hrun : generate_cost_statistics (some ee) (some ce) rate clear db
      = (db', .costSuccess i u t tc ru, 200)) :
    ∃ rateV t0 v0 erest,
      rateOf eid cid rate (stagedStats cid clear db) = .ok rateV ∧
      energyRows (stagedStats cid clear db) eid = (t0, v0) :: erest ∧
      ru = rateV ∧
      db' = { db with
        statistics := (costLoop cid rateV ((t0, v0) :: erest)
          (gsPruned cid clear db t0 (((t0, v0) :: erest).map Prod.fst)).1 0 0 0).1,
        statistics_short_term := stagedShort cid clear db } ∧
      i = (costLoop cid rateV ((t0, v0) :: erest)
        (gsPruned cid clear db t0 (((t0, v0) :: erest).map Prod.fst)).1 0 0 0).2.1 ∧
      u = (costLoop cid rateV ((t0, v0) :: erest)
        (gsPruned cid clear db t0 (((t0, v0) :: erest).map Prod.fst)).1 0 0 0).2.2.1 ∧
      t = ((t0, v0) :: erest).length ∧
      tc = (costLoop cid rateV ((t0, v0) :: erest)
        (gsPruned cid clear db t0 (((t0, v0) :: erest).map Prod.fst)).1 0 0 0).2.2.2 := by
  by_cases hee : ee = ""
  · subst hee
    simp [generate_cost_statistics, strFalsy] at hrun
  by_cases hce : ce = ""
  · subst hce
    simp [generate_cost_statistics, strFalsy] at hrun
  have hcore : gcsCore eid cid rate clear db = (db', .costSuccess i u t tc ru, 200) := by
    rw [← generate_cost_statistics_run heid hcid hee hce]
    exact hrun
  cases hrr : rateOf eid cid rate (stagedStats cid clear db) with
  | error pc =>
    simp only [gcsCore] at hcore
    rw [hrr] at hcore
    -- the error payload construction never carries status 200
    rcases pc with ⟨p, c⟩
    simp only [rateOf] at hrr
    by_cases hfal : rateFalsy rate = true
    · rw [if_pos hfal] at hrr
      cases hbp : bestPair (ratePairs (stagedStats cid clear db) eid cid) with
      | some q => rw [hbp] at hrr; cases hrr
      | none =>
        rw [hbp] at hrr
        cases hrr
        simp at hcore
    · rw [if_neg hfal] at hrr
      cases rate with
      | null => cases hrr; simp at hcore
      | num q => cases hrr
      | str s =>
        simp only [] at hrr
        cases hps : pythonFloat s with
        | some q => rw [hps] at hrr; cases hrr
        | none =>
          rw [hps] at hrr
          cases hrr
          simp at hcore
  | ok rateV =>
    cases hes : energyRows (stagedStats cid clear db) eid with
    | nil =>
      simp only [gcsCore] at hcore
      rw [hrr] at hcore
      simp only [hes] at hcore
      simp at hcore
    | cons e0 erest =>
      rcases e0 with ⟨t0, v0⟩
      rw [gcsCore_run hrr hes] at hcore
      simp only [Prod.mk.injEq, Payload.costSuccess.injEq] at hcore
      obtain ⟨hdb, ⟨hi, hu, ht, htc, hru⟩, -⟩ := hcore
      exact ⟨rateV, t0, v0, erest, rfl, rfl, hru.symm, hdb.symm, hi.symm, hu.symm,
        ht.symm, htc.symm⟩

/-! ## The rate-inference query -/

theorem bestPair_eq_none : ∀ {l : List (Int × ℚ × ℚ)}, bestPair l = none → l = []
  | [], _ => rfl
  | a :: ps, h => by
    rw [bestPair] at h
    cases hb : bestPair ps with
    | none => rw [hb] at h; cases h
    | some m => rw [hb] at h; cases h

theorem bestPair_mem : ∀ {l : List (Int × ℚ × ℚ)} {p : Int × ℚ × ℚ},
    bestPair l = some p → p ∈ l
  | [], p, h => by cases h
  | a :: ps, p, h => by
    rw [bestPair] at h
    cases hb : bestPair ps with
    | none =>
      rw [hb] at h
      cases h
      exact List.mem_cons_self _ _
    | some m =>
      rw [hb] at h
      cases h
      by_cases hlt : a.1 < m.1
      · rw [if_pos hlt]
        exact List.mem_cons_of_mem _ (bestPair_mem hb)
      · rw [if_neg hlt]
        exact List.mem_cons_self _ _

/-- The chosen pair has the most recent bucket (`ORDER BY start_ts DESC
LIMIT 1`). -/
theorem bestPair_max : ∀ {l : List (Int × ℚ × ℚ)} {p : Int × ℚ × ℚ},
    bestPair l = some p → ∀ q ∈ l, q.1 ≤ p.1
  | [], p, h => by cases h
  | a :: ps, p, h => by
    rw [bestPair] at h
    cases hb : bestPair ps with
    | none =>
      rw [hb] at h
      cases h
      intro q hq
      rcases List.mem_cons.mp hq with rfl | hq'
      · exact le_refl _
      · rw [bestPair_eq_none hb] at hq'
        cases hq'
    | some m =>
      rw [hb] at h
      cases h
      intro q hq
      rcases List.mem_cons.mp hq with rfl | hq'
      · by_cases hlt : q.1 < m.1
        · rw [if_pos hlt]
          exact le_of_lt hlt
        · rw [if_neg hlt]
      · have h1 := bestPair_max hb q hq'
        by_cases hlt : a.1 < m.1
        · rw [if_pos hlt]
          exact h1
        · rw [if_neg hlt]
          exact le_trans h1 (not_lt.mp hlt)

/-- Every row of the rate-inference JOIN is a common bucket of the two
series with non-NULL positive values on both sides. -/
theorem ratePairs_mem {tbl : List StatRow} {eid cid : Nat} {p : Int × ℚ × ℚ}
    (hp : p ∈ ratePairs tbl eid cid) :
    (∃ e ∈ tbl, e.metadata_id = eid ∧ e.start_ts = p.1 ∧ e.state = some p.2.1) ∧
    (∃ c ∈ tbl, c.metadata_id = cid ∧ c.start_ts = p.1 ∧ c.state = some p.2.2) ∧
    0 < p.2.1 ∧ 0 < p.2.2 := by
  rw [ratePairs, List.mem_flatten] at hp
  obtain ⟨s, hs, hps⟩ := hp
  obtain ⟨e, he, hfe⟩ := List.mem_map.mp hs
  rw [← hfe] at hps
  obtain ⟨c, hc, hgc⟩ := List.mem_filterMap.mp hps
  cases hse : e.state with
  | none => rw [hse] at hgc; cases hgc
  | some ev =>
    cases hsc : c.state with
    | none => rw [hse, hsc] at hgc; cases hgc
    | some cv =>
      rw [hse, hsc] at hgc
      simp only [] at hgc
      by_cases hcond : e.metadata_id = eid ∧ c.metadata_id = cid ∧
          e.start_ts = c.start_ts ∧ 0 < ev ∧ 0 < cv
      · rw [if_pos hcond] at hgc
        cases hgc
        exact ⟨⟨e, he, hcond.1, rfl, hse⟩,
               ⟨c, hc, hcond.2.1, hcond.2.2.1.symm, hsc⟩,
               hcond.2.2.2.1, hcond.2.2.2.2⟩
      · rw [if_neg hcond] at hgc
        cases hgc

/-- A row of the energy series makes the energy SELECT nonempty. -/
theorem energyRows_ne_nil {tbl : List StatRow} {eid : Nat} {e : StatRow}
    (he : e ∈ tbl) (hm : e.metadata_id = eid) : energyRows tbl eid ≠ [] := by
  intro hnil
  rw [energyRows] at hnil
  have h1 : sortStats (tbl.filter (fun r => r.metadata_id == eid)) = [] :=
    List.map_eq_nil_iff.mp hnil
  have h2 : List.Perm (sortStats (tbl.filter (fun r => r.metadata_id == eid)))
      (tbl.filter (fun r => r.metadata_id == eid)) := List.perm_insertionSort _ _
  rw [h1] at h2
  have h3 : tbl.filter (fun r => r.metadata_id == eid) = [] := h2.nil_eq.symm
  have h4 : e ∈ tbl.filter (fun r => r.metadata_id == eid) :=
    List.mem_filter.mpr ⟨he, by simp [hm]⟩
  rw [h3] at h4
  cases h4

/-! ## Claim C10: a falsy rate parameter behaves as an absent rate -/

/-- C10: a supplied `rate` parameter that is falsy in Python — explicit
null, the number 0, or the empty string (exactly the values with
`rateFalsy` true) — makes the call behave exactly as if no rate had been
supplied: the whole run equals the null-rate run, so the supplied zero rate
is never used and the operation auto-infers the rate or fails with the
400 domain error. -/
theorem generate_cost_statistics_falsy_rate
    (ee ce : Option String) (r : RateParam) (clear : Bool) (db : DB)
    (hfal : rateFalsy r = true) :
    generate_cost_statistics ee ce r clear db
      = generate_cost_statistics ee ce RateParam.null clear db := by
  have hnull : rateFalsy RateParam.null = true := rfl
  simp [generate_cost_statistics, gcsCore, rateOf, hfal, hnull]

/-- Witness for C10: the zero rate on `cDB`. -/
theorem generate_cost_statistics_falsy_rate_witness :
    rateFalsy (RateParam.num 0) = true ∧
    generate_cost_statistics (some "sensor.energy") (some "sensor.cost")
        (RateParam.num 0) false cDB
      = generate_cost_statistics (some "sensor.energy") (some "sensor.cost")
        RateParam.null false cDB :=
  ⟨by with_unfolding_all decide,
   generate_cost_statistics_falsy_rate (some "sensor.energy") (some "sensor.cost")
     (RateParam.num 0) false cDB (by with_unfolding_all decide)⟩

/-! ## Claim C6: rate auto-inference and its 400 failure -/

/-- C6: when `generate_cost_statistics` is called without a usable rate, the
rate used is cost-value / energy-value taken at a bucket present in both
series with strictly positive non-NULL values on both sides that is the most
recent such bucket; when no such bucket exists the call returns a 400 error
with the unchanged database (no cost row written) and without crashing. -/
theorem generate_cost_statistics_rate_inference
    (ee ce : String) (rate : RateParam) (db : DB) (eid cid : Nat)
    (heid : statsMetaId db ee = some eid) (hcid : statsMetaId db ce = some cid)
    (hee : ee ≠ "") (hce : ce ≠ "") (hfal : rateFalsy rate = true) :
    (ratePairs db.statistics eid cid = [] →
      generate_cost_statistics (some ee) (some ce) rate false db
        = (db, .error "Could not auto-calculate rate: no existing cost statistics found. Please provide rate parameter.", 400)) ∧
    (∀ p, bestPair (ratePairs db.statistics eid cid) = some p →
      p ∈ ratePairs db.statistics eid cid ∧
      (∀ q ∈ ratePairs db.statistics eid cid, q.1 ≤ p.1) ∧
      (∃ e ∈ db.statistics, e.metadata_id = eid ∧ e.start_ts = p.1 ∧
        e.state = some p.2.1) ∧
      (∃ c ∈ db.statistics, c.metadata_id = cid ∧ c.start_ts = p.1 ∧
        c.state = some p.2.2) ∧
      0 < p.2.1 ∧ 0 < p.2.2 ∧
      ∃ db' i u t tc, generate_cost_statistics (some ee) (some ce) rate false db
        = (db', .costSuccess i u t tc (p.2.2 / p.2.1), 200)) := by
  have hss : stagedStats cid false db = db.statistics := rfl
  constructor
  · intro hrp
    have hrr : rateOf eid cid rate (stagedStats cid false db)
        = .error (.error "Could not auto-calculate rate: no existing cost statistics found. Please provide rate parameter.", 400) := by
      rw [rateOf.eq_def, if_pos hfal, hss, hrp]
      rfl
    rw [generate_cost_statistics_run heid hcid hee hce]
    simp only [gcsCore]
    rw [hrr]
  · intro p hbp
    have hpm := bestPair_mem hbp
    obtain ⟨⟨e, he, hem, het, hes'⟩, hcpart, hpos⟩ := ratePairs_mem hpm
    have hrr : rateOf eid cid rate (stagedStats cid false db) = .ok (p.2.2 / p.2.1) := by
      rw [rateOf.eq_def, if_pos hfal, hss, hbp]
    have hner : energyRows (stagedStats cid false db) eid ≠ [] := by
      rw [hss]
      exact energyRows_ne_nil he hem
    obtain ⟨e0, erest, hesr⟩ := List.exists_cons_of_ne_nil hner
    rcases e0 with ⟨t0, v0⟩
    refine ⟨hpm, bestPair_max hbp, ⟨e, he, hem, het, hes'⟩, hcpart, hpos.1, hpos.2,
      ?_⟩
    rw [generate_cost_statistics_run heid hcid hee hce, gcsCore_run hrr hesr]
    exact ⟨_, _, _, _, _, rfl⟩

/-- Witness for C6 on `c6DB`: no (energy, cost) bucket pair exists, so the
call returns the 400 domain error with the store unchanged. -/
theorem generate_cost_statistics_rate_inference_witness :
    (statsMetaId c6DB "sensor.energy" = some 7 ∧
     statsMetaId c6DB "sensor.cost" = some 9 ∧
     "sensor.energy" ≠ "" ∧ "sensor.cost" ≠ "" ∧
     rateFalsy RateParam.null = true ∧
     ratePairs c6DB.statistics 7 9 = []) ∧
    generate_cost_statistics (some "sensor.energy") (some "sensor.cost")
        RateParam.null false c6DB
      = (c6DB, .error "Could not auto-calculate rate: no existing cost statistics found. Please provide rate parameter.", 400) :=
  ⟨⟨by decide, by decide, by decide, by decide, rfl, by with_unfolding_all decide⟩,
   (generate_cost_statistics_rate_inference "sensor.energy" "sensor.cost"
     RateParam.null c6DB 7 9 (by decide) (by decide) (by decide) (by decide) rfl).1
     (by with_unfolding_all decide)⟩

/-! ## Claim C5: deriving cost with an explicit rate -/

theorem mem_keys_of_mem {rows : List (Int × Option ℚ)} {ts : Int} {w : Option ℚ}
    (h : (ts, w) ∈ rows) : ts ∈ rows.map Prod.fst :=
  List.mem_map.mpr ⟨(ts, w), h, rfl⟩

/-- Under unique bucket keys, a NULL bucket is no valued bucket. -/
theorem nodup_keys_not_valued :
    ∀ (rows : List (Int × Option ℚ)) {ts : Int},
      (rows.map Prod.fst).Nodup → (ts, (none : Option ℚ)) ∈ rows →
      ts ∉ valuedKeys rows
  | [], ts, _, hmem => absurd hmem (List.not_mem_nil _)
  | (t0, w0) :: rest, ts, hnd, hmem => by
    have hnd' : (rest.map Prod.fst).Nodup := by
      rw [List.map_cons] at hnd
      exact hnd.of_cons
    have hhead : t0 ∉ rest.map Prod.fst := by
      rw [List.map_cons] at hnd
      exact List.Nodup.not_mem hnd
    rcases List.mem_cons.mp hmem with heq | hmem'
    · have ht0 : t0 = ts := by cases heq; rfl
      have hw0 : w0 = none := by cases heq; rfl
      subst ht0
      subst hw0
      intro hv
      exact hhead (valuedKeys_subset_keys rest t0 hv)
    · cases w0 with
      | none => exact nodup_keys_not_valued rest hnd' hmem'
      | some v0 =>
        intro hv
        rcases List.mem_cons.mp hv with rfl | hv'
        · exact hhead (mem_keys_of_mem hmem')
        · exact nodup_keys_not_valued rest hnd' hmem' hv'

/-- C5 counterexample: supplying the numeric rate 0 does not make the written
cost points `0 × energy`: the zero rate is falsy, so the code auto-infers the
rate (here 1/2) and writes nonzero costs and a nonzero total. -/
theorem generate_cost_statistics_zero_rate_counterexample :
    generate_cost_statistics (some "sensor.energy") (some "sensor.cost")
        (RateParam.num 0) false cDB
      = (cOutN, .costSuccess 1 1 3 (5 / 2) (1 / 2), 200) ∧
    (∃ r ∈ cOutN.statistics, r.metadata_id = 9 ∧ r.start_ts = 3600 ∧
      r.state = some (3 / 2)) ∧
    some ((3 : ℚ) / 2) ≠ some ((0 : ℚ) * 3) ∧
    ((5 : ℚ) / 2) ≠ 0 * ((2 : ℚ) + 3) ∧ ((1 : ℚ) / 2) ≠ 0 := by
  refine ⟨?_, ?_, ?_, ?_, ?_⟩
  · have hq1 : (2 : ℚ) * (1 / 2) = 1 := by with_unfolding_all decide
    have hq2 : (3 : ℚ) * (1 / 2) = 3 / 2 := by with_unfolding_all decide
    have hq3 : (0 : ℚ) + 1 = 1 := by with_unfolding_all decide
    have hq4 : (1 : ℚ) + 3 / 2 = 5 / 2 := by with_unfolding_all decide
    have hq5 : (1 : ℚ) / 2 = 1 / 2 := rfl
    simp [generate_cost_statistics, gcsCore, rateOf, rateFalsy, statsMetaId,
      strFalsy, stagedStats, stagedShort, gsPruned, isOrphan, ratePairs, bestPair,
      energyRows, sortStats, costLoop, keyMatch, lastTs, valuedKeys, cDB, cOutN,
      List.insertionSort, List.orderedInsert, List.find?, List.filter, List.any,
      intBeq, hq1, hq2, hq3, hq4, hq5]
    constructor
    · with_unfolding_all decide
    · with_unfolding_all decide
  · exact ⟨{ metadata_id := 9, start_ts := 3600, created_ts := 3600,
             state := some (3 / 2), sum := some (5 / 2) },
      by simp [cOutN, cDB], rfl, rfl, rfl⟩
  · with_unfolding_all decide
  · with_unfolding_all decide
  · with_unfolding_all decide

/-- C5 (amended): for every successful run of `generate_cost_statistics`
with an explicitly supplied nonzero numeric rate R over the energy series
(whose bucket keys are unique), the rate used is R, each non-NULL energy
bucket's written cost point value equals R times the energy point value,
NULL-valued energy rows are skipped — they contribute no cost row and do not
affect the running total — and the reported total cost equals R times the
sum of the non-NULL energy point values. -/
theorem generate_cost_statistics_explicit_rate
    (ee ce : String) (R : ℚ) (db db' : DB) (i u t : Nat) (tc ru : ℚ) (eid cid : Nat)
    (heid : statsMetaId db ee = some eid) (hcid : statsMetaId db ce = some cid)
    (hR : R ≠ 0)
    (hnd : ((energyRows db.statistics eid).map Prod.fst).Nodup)
    (hrun : generate_cost_statistics (some ee) (some ce) (RateParam.num R) false db
      = (db', .costSuccess i u t tc ru, 200)) :
    ru = R ∧
    tc = R * ((energyRows db.statistics eid).filterMap Prod.snd).sum ∧
    (∀ ts v, (ts, some v) ∈ energyRows db.statistics eid →
      (∃ r ∈ db'.statistics, r.metadata_id = cid ∧ r.start_ts = ts) ∧
      (∀ r ∈ db'.statistics, r.metadata_id = cid → r.start_ts = ts →
        r.state = some (v * R))) ∧
    (∀ ts, (ts, (none : Option ℚ)) ∈ energyRows db.statistics eid →
      (∀ r ∈ db.statistics, ¬(r.metadata_id = cid ∧ r.start_ts = ts)) →
      ∀ r' ∈ db'.statistics, ¬(r'.metadata_id = cid ∧ r'.start_ts = ts)) := by
  obtain ⟨rateV, t0, v0, erest, hrr, hes, hru, hdb, hi, hu, ht, htc⟩ :=
    generate_cost_statistics_success_inv heid hcid hrun
  have hfal : rateFalsy (RateParam.num R) = false := by simp [rateFalsy, hR]
  have hrOk : rateOf eid cid (RateParam.num R) (stagedStats cid false db)
      = .ok R := by
    rw [rateOf.eq_def, if_neg (by rw [hfal]; exact Bool.false_ne_true)]
  rw [hrOk] at hrr
  cases hrr
  have hss : stagedStats cid false db = db.statistics := rfl
  rw [hss] at hes
  have hnd' : (((t0, v0) :: erest).map Prod.fst).Nodup := by
    rw [← hes]
    exact hnd
  refine ⟨hru, ?_, ?_, ?_⟩
  · rw [htc, costLoop_cum, zero_add, hes, mul_comm]
  · intro ts v hmem
    rw [hes] at hmem
    have hw := costLoop_writes cid R ((t0, v0) :: erest)
      (gsPruned cid false db t0 (((t0, v0) :: erest).map Prod.fst)).1 0 0 0
      hnd' ts v hmem
    rw [hdb]
    exact hw
  · intro ts hmem hnokey r' hr' hkey
    obtain ⟨hm', ht'⟩ := hkey
    rw [hes] at hmem
    rw [hdb] at hr'
    rcases costLoop_origin cid R ((t0, v0) :: erest)
      (gsPruned cid false db t0 (((t0, v0) :: erest).map Prod.fst)).1 0 0 0 r' hr'
      with hP | hval
    · have hPd : (gsPruned cid false db t0 (((t0, v0) :: erest).map Prod.fst)).1
          = (stagedStats cid false db).filter
            (fun r => !(isOrphan cid t0
              (lastTs (((t0, v0) :: erest).map Prod.fst))
              (((t0, v0) :: erest).map Prod.fst) r)) := by
        simp [gsPruned]
      rw [hPd, hss] at hP
      exact hnokey r' (List.mem_of_mem_filter hP) ⟨hm', ht'⟩
    · rw [ht'] at hval
      exact nodup_keys_not_valued ((t0, v0) :: erest) hnd' hmem hval.2

/-- The energy SELECT on `cDB`. -/
theorem cDB_energyRows :
    energyRows cDB.statistics 7 = [(0, some 2), (3600, some 3), (7200, none)] := by
  simp [energyRows, sortStats, cDB, List.insertionSort, List.orderedInsert,
    List.filter]

/-- Deriving costs on `cDB` with the explicit rate 1/4. -/
theorem cDB_runQ : generate_cost_statistics (some "sensor.energy")
      (some "sensor.cost") (RateParam.num (1 / 4)) false cDB
    = (cOutQ, .costSuccess 1 1 3 (5 / 4) (1 / 4), 200) := by
  have hq1 : (2 : ℚ) * (1 / 4) = 1 / 2 := by with_unfolding_all decide
  have hq2 : (3 : ℚ) * (1 / 4) = 3 / 4 := by with_unfolding_all decide
  have hq3 : (0 : ℚ) + 1 / 2 = 1 / 2 := by with_unfolding_all decide
  have hq4 : (1 : ℚ) / 2 + 3 / 4 = 5 / 4 := by with_unfolding_all decide
  have hq5 : ((1 : ℚ) / 4 == 0) = false := by with_unfolding_all decide
  simp [generate_cost_statistics, gcsCore, rateOf, rateFalsy, statsMetaId,
    strFalsy, stagedStats, stagedShort, gsPruned, isOrphan, energyRows,
    sortStats, costLoop, keyMatch, lastTs, cDB, cOutQ, List.insertionSort,
    List.orderedInsert, List.find?, List.filter, List.any, intBeq,
    hq1, hq2, hq3, hq4, hq5]
  with_unfolding_all decide

/-- Witness for C5 on `cDB` with rate 1/4. -/
theorem generate_cost_statistics_explicit_rate_witness :
    (statsMetaId cDB "sensor.energy" = some 7 ∧
     statsMetaId cDB "sensor.cost" = some 9 ∧
     ((1 : ℚ) / 4) ≠ 0 ∧
     ((energyRows cDB.statistics 7).map Prod.fst).Nodup ∧
     generate_cost_statistics (some "sensor.energy") (some "sensor.cost")
         (RateParam.num (1 / 4)) false cDB
       = (cOutQ, .costSuccess 1 1 3 (5 / 4) (1 / 4), 200)) ∧
    ((1 : ℚ) / 4 = 1 / 4 ∧
     (5 : ℚ) / 4 = 1 / 4 * ((energyRows cDB.statistics 7).filterMap Prod.snd).sum ∧
     (∀ ts v, (ts, some v) ∈ energyRows cDB.statistics 7 →
       (∃ r ∈ cOutQ.statistics, r.metadata_id = 9 ∧ r.start_ts = ts) ∧
       (∀ r ∈ cOutQ.statistics, r.metadata_id = 9 → r.start_ts = ts →
         r.state = some (v * (1 / 4)))) ∧
     (∀ ts, (ts, (none : Option ℚ)) ∈ energyRows cDB.statistics 7 →
       (∀ r ∈ cDB.statistics, ¬(r.metadata_id = 9 ∧ r.start_ts = ts)) →
       ∀ r' ∈ cOutQ.statistics, ¬(r'.metadata_id = 9 ∧ r'.start_ts = ts))) :=
  ⟨⟨by decide, by decide, by with_unfolding_all decide,
    by rw [cDB_energyRows]; decide, cDB_runQ⟩,
   generate_cost_statistics_explicit_rate "sensor.energy" "sensor.cost" (1 / 4)
     cDB cOutQ 1 1 3 (5 / 4) (1 / 4) 7 9 (by decide) (by decide)
     (by with_unfolding_all decide) (by rw [cDB_energyRows]; decide) cDB_runQ⟩

/-! ## Claim C9: clear_existing removes every prior row of the series -/

theorem freshRows_start_mem (sid : Nat) (d : List (Int × ℚ)) :
    ∀ (hs : List Int) (cum : ℚ) (r : StatRow),
      r ∈ freshRows sid d hs cum → r.start_ts ∈ hs
  | [], cum, r, h => by simp [freshRows] at h
  | h0 :: hs, cum, r, hm => by
    rw [freshRows] at hm
    rcases List.mem_cons.mp hm with rfl | hm'
    · exact List.mem_cons_self _ _
    · exact List.mem_cons_of_mem _ (freshRows_start_mem sid d hs _ r hm')

theorem freshCostRows_start_mem (cid : Nat) (rate : ℚ) :
    ∀ (rows : List (Int × Option ℚ)) (cum : ℚ) (r : StatRow),
      r ∈ freshCostRows cid rate rows cum → r.start_ts ∈ valuedKeys rows
  | [], cum, r, h => by simp [freshCostRows] at h
  | (t0, none) :: rest, cum, r, hm => by
    rw [freshCostRows] at hm
    have h2 := freshCostRows_start_mem cid rate rest cum r hm
    simpa [valuedKeys, List.filterMap_cons] using h2
  | (t0, some v0) :: rest, cum, r, hm => by
    rw [freshCostRows] at hm
    rcases List.mem_cons.mp hm with rfl | hm'
    · simp [valuedKeys, List.filterMap_cons]
    · have h2 := freshCostRows_start_mem cid rate rest _ r hm'
      simp [valuedKeys, List.filterMap_cons] at h2 ⊢
      exact Or.inr h2

/-- Aggregating `c7DB` with `clear_existing` removes all prior series-7
rows and inserts the two recomputed bucket rows. -/
theorem c7DB_runC : generate_statistics (some "sensor.energy") true c7DB
    = (c7OutC, .statsSuccess 2 0 0 2 5, 200) := by
  have hq1 : (0 : ℚ) + 2 = 2 := by with_unfolding_all decide
  have hq2 : (2 : ℚ) + 3 = 5 := by with_unfolding_all decide
  simp [generate_statistics, gsCore, statsMetaId, statesMetaId, strFalsy,
    filteredStates, sortStates, validState, buildHourly, dictUpsert, hoursOf,
    lookupD, keyMatch, upsertHours, gsPruned, stagedStats, stagedShort, isOrphan,
    lastTs, c7DB, c7OutC, egDB, List.insertionSort, List.orderedInsert, List.find?,
    List.filter, List.any, hourOf, Int.fdiv, pfloat_15, pfloat_20, pfloat_30,
    creal_15, creal_20, creal_30, intBeq, hq1, hq2]

/-- The energy SELECT on `cDB` after the bulk clear of the cost series. -/
theorem cDB_energyRowsC :
    energyRows (stagedStats 9 true cDB) 7
      = [(0, some 2), (3600, some 3), (7200, none)] := by
  simp [energyRows, sortStats, stagedStats, cDB, List.insertionSort,
    List.orderedInsert, List.filter]

/-- Deriving costs on `cDB` with the explicit rate 1/3 and `clear_existing`. -/
theorem cDB_runC : generate_cost_statistics (some "sensor.energy")
      (some "sensor.cost") (RateParam.num (1 / 3)) true cDB
    = (cOutC, .costSuccess 2 0 3 (5 / 3) (1 / 3), 200) := by
  have hq1 : (2 : ℚ) * (1 / 3) = 2 / 3 := by with_unfolding_all decide
  have hq2 : (3 : ℚ) * (1 / 3) = 1 := by with_unfolding_all decide
  have hq3 : (0 : ℚ) + 2 / 3 = 2 / 3 := by with_unfolding_all decide
  have hq4 : (2 : ℚ) / 3 + 1 = 5 / 3 := by with_unfolding_all decide
  have hq5 : ((1 : ℚ) / 3 == 0) = false := by with_unfolding_all decide
  simp [generate_cost_statistics, gcsCore, rateOf, rateFalsy, statsMetaId,
    strFalsy, stagedStats, stagedShort, gsPruned, isOrphan, energyRows,
    sortStats, costLoop, keyMatch, lastTs, cDB, cOutC, List.insertionSort,
    List.orderedInsert, List.find?, List.filter, List.any, intBeq,
    hq1, hq2, hq3, hq4, hq5]
  with_unfolding_all decide

/-- C9: on every successful run of `generate_statistics` — and likewise
`generate_cost_statistics` — with the clear-existing flag set, the final
statistics table is exactly the prior table with every row of the target
series removed and the freshly recomputed rows appended (so every surviving
row of the target series is keyed at a bucket computed by this run, and rows
of every other series are unchanged), and the short-interval statistics
table is exactly the prior one with every row of the target series
removed. -/
theorem clear_existing_removes_prior_rows
    (e : String) (db db1 : DB) (i u dl t : Nat) (f : ℚ) (sid mid : Nat)
    (d : List (Int × ℚ))
    (hsid : statsMetaId db e = some sid) (hmid : statesMetaId db e = some mid)
    (hb : buildHourly (filteredStates db mid) [] = some d)
    (hrun : generate_statistics (some e) true db
      = (db1, .statsSuccess i u dl t f, 200))
    (ee ce : String) (rp : RateParam) (dbc db1c : DB) (ic uc tn : Nat)
    (tc ru : ℚ) (eid cid : Nat)
    (heid : statsMetaId dbc ee = some eid) (hcid : statsMetaId dbc ce = some cid)
    (hnd : ((energyRows (stagedStats cid true dbc) eid).map Prod.fst).Nodup)
    (hrunc : generate_cost_statistics (some ee) (some ce) rp true dbc
      = (db1c, .costSuccess ic uc tn tc ru, 200)) :
    (db1.statistics
       = db.statistics.filter (fun r => !(r.metadata_id == sid))
         ++ freshRows sid d (hoursOf d) 0 ∧
     (∀ r ∈ db1.statistics, r.metadata_id = sid → r.start_ts ∈ hoursOf d) ∧
     db1.statistics_short_term
       = db.statistics_short_term.filter (fun r => !(r.metadata_id == sid))) ∧
    (db1c.statistics
       = dbc.statistics.filter (fun r => !(r.metadata_id == cid))
         ++ freshCostRows cid ru (energyRows (stagedStats cid true dbc) eid) 0 ∧
     (∀ r ∈ db1c.statistics, r.metadata_id = cid →
        r.start_ts ∈ valuedKeys (energyRows (stagedStats cid true dbc) eid)) ∧
     db1c.statistics_short_term
       = dbc.statistics_short_term.filter (fun r => !(r.metadata_id == cid))) := by
  constructor
  · obtain ⟨h0, hrest, hh, hdb, hi, hu, hdl, ht, hf2⟩ :=
      generate_statistics_success_inv hsid hmid hb hrun
    have hd_nodup : (d.map Prod.fst).Nodup :=
      buildHourly_keys_nodup (filteredStates db mid) [] d (by simp) hb
    have hndh : (h0 :: hrest).Nodup := by
      rw [← hh]
      exact hoursOf_nodup hd_nodup
    have hpr : (gsPruned sid true db h0 (h0 :: hrest)).1
        = db.statistics.filter (fun r => !(r.metadata_id == sid)) := by
      simp [gsPruned, stagedStats]
    have hkeys : ∀ r ∈ db.statistics.filter (fun r => !(r.metadata_id == sid)),
        r.metadata_id = sid → r.start_ts ∉ (h0 :: hrest) := by
      intro r hr hm
      exact absurd hm (by simpa using List.of_mem_filter hr)
    have hUp := upsertHours_fresh sid d (h0 :: hrest)
      (db.statistics.filter (fun r => !(r.metadata_id == sid))) 0 0 0 hndh hkeys
    have hstats : db1.statistics
        = db.statistics.filter (fun r => !(r.metadata_id == sid))
          ++ freshRows sid d (h0 :: hrest) 0 := by
      rw [hdb]
      show (upsertHours sid d (h0 :: hrest)
        (gsPruned sid true db h0 (h0 :: hrest)).1 0 0 0).1 = _
      rw [hpr, hUp]
    refine ⟨by rw [hstats, hh], ?_, ?_⟩
    · intro r hr hm
      rw [hstats] at hr
      rcases List.mem_append.mp hr with hr' | hr'
      · exact absurd hm (by simpa using List.of_mem_filter hr')
      · rw [hh]
        exact freshRows_start_mem sid d (h0 :: hrest) 0 r hr'
    · rw [hdb]
      show stagedShort sid true db = _
      simp [stagedShort]
  · obtain ⟨rateV, t0, v0, erest, hrr, hes, hru, hdbc, hic, huc, htn, htc⟩ :=
      generate_cost_statistics_success_inv heid hcid hrunc
    have hndr : (((t0, v0) :: erest).map Prod.fst).Nodup := by
      rw [← hes]
      exact hnd
    have hprc : (gsPruned cid true dbc t0 (((t0, v0) :: erest).map Prod.fst)).1
        = dbc.statistics.filter (fun r => !(r.metadata_id == cid)) := by
      simp [gsPruned, stagedStats]
    have hkeysc : ∀ r ∈ dbc.statistics.filter (fun r => !(r.metadata_id == cid)),
        r.metadata_id = cid → r.start_ts ∉ valuedKeys ((t0, v0) :: erest) := by
      intro r hr hm
      exact absurd hm (by simpa using List.of_mem_filter hr)
    have hC := costLoop_fresh cid rateV ((t0, v0) :: erest)
      (dbc.statistics.filter (fun r => !(r.metadata_id == cid))) 0 0 0 hndr hkeysc
    have hstatsc : db1c.statistics
        = dbc.statistics.filter (fun r => !(r.metadata_id == cid))
          ++ freshCostRows cid rateV ((t0, v0) :: erest) 0 := by
      rw [hdbc]
      show (costLoop cid rateV ((t0, v0) :: erest)
        (gsPruned cid true dbc t0 (((t0, v0) :: erest).map Prod.fst)).1 0 0 0).1 = _
      rw [hprc, hC]
    refine ⟨by rw [hstatsc, hru, hes], ?_, ?_⟩
    · intro r hr hm
      rw [hstatsc] at hr
      rcases List.mem_append.mp hr with hr' | hr'
      · exact absurd hm (by simpa using List.of_mem_filter hr')
      · rw [hes]
        exact freshCostRows_start_mem cid rateV ((t0, v0) :: erest) 0 r hr'
    · rw [hdbc]
      show stagedShort cid true dbc = _
      simp [stagedShort]

/-- Witness for C9 on `c7DB` (aggregation) and `cDB` (cost derivation). -/
theorem clear_existing_removes_prior_rows_witness :
    (statsMetaId c7DB "sensor.energy" = some 7 ∧
     statesMetaId c7DB "sensor.energy" = some 1 ∧
     buildHourly (filteredStates c7DB 1) [] = some [(0, 2), (3600, 3)] ∧
     generate_statistics (some "sensor.energy") true c7DB
       = (c7OutC, .statsSuccess 2 0 0 2 5, 200) ∧
     statsMetaId cDB "sensor.energy" = some 7 ∧
     statsMetaId cDB "sensor.cost" = some 9 ∧
     ((energyRows (stagedStats 9 true cDB) 7).map Prod.fst).Nodup ∧
     generate_cost_statistics (some "sensor.energy") (some "sensor.cost")
         (RateParam.num (1 / 3)) true cDB
       = (cOutC, .costSuccess 2 0 3 (5 / 3) (1 / 3), 200)) ∧
    ((c7OutC.statistics
        = c7DB.statistics.filter (fun r => !(r.metadata_id == 7))
          ++ freshRows 7 [(0, 2), (3600, 3)] (hoursOf [(0, 2), (3600, 3)]) 0 ∧
      (∀ r ∈ c7OutC.statistics, r.metadata_id = 7 →
        r.start_ts ∈ hoursOf [(0, 2), (3600, 3)]) ∧
      c7OutC.statistics_short_term
        = c7DB.statistics_short_term.filter (fun r => !(r.metadata_id == 7))) ∧
     (cOutC.statistics
        = cDB.statistics.filter (fun r => !(r.metadata_id == 9))
          ++ freshCostRows 9 (1 / 3) (energyRows (stagedStats 9 true cDB) 7) 0 ∧
      (∀ r ∈ cOutC.statistics, r.metadata_id = 9 →
        r.start_ts ∈ valuedKeys (energyRows (stagedStats 9 true cDB) 7)) ∧
      cOutC.statistics_short_term
        = cDB.statistics_short_term.filter (fun r => !(r.metadata_id == 9)))) :=
  ⟨⟨by decide, by decide, c7DB_hourly, c7DB_runC, by decide, by decide,
    by rw [cDB_energyRowsC]; decide, cDB_runC⟩,
   clear_existing_removes_prior_rows "sensor.energy" c7DB c7OutC 2 0 0 2 5 7 1
     [(0, 2), (3600, 3)] (by decide) (by decide) c7DB_hourly c7DB_runC
     "sensor.energy" "sensor.cost" (RateParam.num (1 / 3)) cDB cOutC 2 0 3
     (5 / 3) (1 / 3) 7 9 (by decide) (by decide)
     (by rw [cDB_energyRowsC]; decide) cDB_runC⟩

/-! ## Claim C3: recording the same reading twice is deduplicated -/

theorem find?_append_none {α : Type} (l1 l2 : List α) (f : α → Bool)
    (h : l1.find? f = none) : (l1 ++ l2).find? f = l2.find? f := by
  induction l1 with
  | nil => rfl
  | cons a l ih =>
    cases hfa : f a with
    | true =>
      rw [List.find?_cons_of_pos _ hfa] at h
      cases h
    | false =>
      rw [List.find?_cons_of_neg _ (by simp [hfa])] at h
      rw [List.cons_append, List.find?_cons_of_neg _ (by simp [hfa])]
      exact ih h

/-- When a reading with the same `(metadata_id, last_changed_ts)` exists,
`backfill_state` writes nothing and reports the duplicate. -/
theorem backfill_state_skip_of_exists {e st : String} {lc : Int} {lu : Option Int}
    {db : DB} {p : Nat × String}
    (he : e ≠ "") (hst : st ≠ "")
    (hf : db.states_meta.find? (fun q => q.2 == e) = some p)
    (hany : db.states.any
      (fun r => r.metadata_id == p.1 && r.last_changed_ts == lc) = true) :
    backfill_state (some e) (some st) (some lc) lu db
      = (db, .skipped "duplicate", 200) := by
  simp only [backfill_state]
  rw [if_neg (by simp [he, hst]), hf]
  simp [hany]

/-- First-time recording for an unknown entity: the metadata row is created
and the reading appended. -/
theorem backfill_state_inserts_new_meta {e st : String} {lc : Int} {lu : Option Int}
    {db : DB}
    (he : e ≠ "") (hst : st ≠ "")
    (hf : db.states_meta.find? (fun q => q.2 == e) = none)
    (hany : db.states.any
      (fun r => r.metadata_id == db.next_states_meta_id
        && r.last_changed_ts == lc) = false) :
    backfill_state (some e) (some st) (some lc) lu db
      = ({ db with
            states_meta := db.states_meta ++ [(db.next_states_meta_id, e)],
            next_states_meta_id := db.next_states_meta_id + 1,
            states := db.states ++
              [bfRow db.next_states_meta_id st lc (lu.getD lc)] },
         .success, 200) := by
  simp only [backfill_state]
  rw [if_neg (by simp [he, hst]), hf]
  simp [hany, bfRow]

/-- Recording for a known entity with no duplicate: the reading is
appended, the metadata tables untouched. -/
theorem backfill_state_inserts_existing {e st : String} {lc : Int} {lu : Option Int}
    {db : DB} {p : Nat × String}
    (he : e ≠ "") (hst : st ≠ "")
    (hf : db.states_meta.find? (fun q => q.2 == e) = some p)
    (hany : db.states.any
      (fun r => r.metadata_id == p.1 && r.last_changed_ts == lc) = false) :
    backfill_state (some e) (some st) (some lc) lu db
      = ({ db with states := db.states ++ [bfRow p.1 st lc (lu.getD lc)] },
         .success, 200) := by
  simp only [backfill_state]
  rw [if_neg (by simp [he, hst]), hf]
  simp [hany, bfRow]

/-- C3: starting from a store satisfying the uniqueness invariant (at most
one reading per (entity, observed-timestamp) pair) and the AUTOINCREMENT
freshness invariant, calling `backfill_state` twice with the same entity and
observed timestamp leaves exactly one stored reading for that pair: the
second call returns the store of the first call unchanged with payload
`skipped / duplicate`. -/
theorem backfill_state_duplicate_skip
    (e st st2 : String) (lc : Int) (lu lu2 : Option Int)
    (db db1 : DB) (p1 : Payload) (c1 : Nat)
    (he : e ≠ "") (hst : st ≠ "") (hst2 : st2 ≠ "")
    (hfresh : ∀ r ∈ db.states, r.metadata_id ≠ db.next_states_meta_id)
    (hcount : countReadings db e lc ≤ 1)
    (hrun1 : backfill_state (some e) (some st) (some lc) lu db = (db1, p1, c1)) :
    backfill_state (some e) (some st2) (some lc) lu2 db1
      = (db1, .skipped "duplicate", 200) ∧
    countReadings db1 e lc = 1 := by
  cases hf : db.states_meta.find? (fun q => q.2 == e) with
  | none =>
    have hany : db.states.any
        (fun r => r.metadata_id == db.next_states_meta_id
          && r.last_changed_ts == lc) = false := by
      cases hb : db.states.any
          (fun r => r.metadata_id == db.next_states_meta_id
            && r.last_changed_ts == lc) with
      | false => rfl
      | true =>
        obtain ⟨r, hr, hpr⟩ := List.any_eq_true.mp hb
        rw [Bool.and_eq_true] at hpr
        exact absurd (by simpa using hpr.1) (hfresh r hr)
    rw [backfill_state_inserts_new_meta he hst hf hany] at hrun1
    simp only [Prod.mk.injEq] at hrun1
    obtain ⟨hdb1, -⟩ := hrun1
    subst hdb1
    have hf2 : (db.states_meta ++ [(db.next_states_meta_id, e)]).find?
        (fun q => q.2 == e) = some (db.next_states_meta_id, e) := by
      rw [find?_append_none _ _ _ hf]
      exact List.find?_cons_of_pos _ (by simp)
    have hany2 : (db.states ++
        [bfRow db.next_states_meta_id st lc (lu.getD lc)]).any
        (fun r => r.metadata_id == db.next_states_meta_id
          && r.last_changed_ts == lc) = true :=
      List.any_eq_true.mpr ⟨_, List.mem_append_right _ (List.mem_singleton_self _),
        by simp [bfRow]⟩
    refine ⟨backfill_state_skip_of_exists he hst2 hf2 hany2, ?_⟩
    have hfilt : db.states.filter
        (fun r => r.metadata_id == db.next_states_meta_id
          && r.last_changed_ts == lc) = [] := by
      rw [List.filter_eq_nil_iff]
      intro r hr
      simp [hfresh r hr]
    have h1 : countReadings
        ({ db with
            states_meta := db.states_meta ++ [(db.next_states_meta_id, e)],
            next_states_meta_id := db.next_states_meta_id + 1,
            states := db.states ++
              [bfRow db.next_states_meta_id st lc (lu.getD lc)] } : DB) e lc
        = ((db.states ++ [bfRow db.next_states_meta_id st lc (lu.getD lc)]).filter
            (fun r => r.metadata_id == db.next_states_meta_id
              && r.last_changed_ts == lc)).length := by
      show (match (db.states_meta ++ [(db.next_states_meta_id, e)]).find?
              (fun q => q.2 == e) with
            | some q => ((db.states ++
                [bfRow db.next_states_meta_id st lc (lu.getD lc)]).filter
                (fun (r : StateRow) => r.metadata_id == q.1 && r.last_changed_ts == lc)).length
            | none => 0) = _
      rw [hf2]
    rw [h1, List.filter_append, hfilt]
    simp [bfRow]
  | some p =>
    cases hany : db.states.any
        (fun r => r.metadata_id == p.1 && r.last_changed_ts == lc) with
    | true =>
      rw [backfill_state_skip_of_exists he hst hf hany] at hrun1
      simp only [Prod.mk.injEq] at hrun1
      obtain ⟨hdb1, -⟩ := hrun1
      subst hdb1
      refine ⟨backfill_state_skip_of_exists he hst2 hf hany, ?_⟩
      have hcr : countReadings db e lc = (db.states.filter
          (fun r => r.metadata_id == p.1 && r.last_changed_ts == lc)).length := by
        simp only [countReadings]
        rw [hf]
      obtain ⟨r, hr, hpr⟩ := List.any_eq_true.mp hany
      have hmem : r ∈ db.states.filter
          (fun r => r.metadata_id == p.1 && r.last_changed_ts == lc) :=
        List.mem_filter.mpr ⟨hr, hpr⟩
      have hge : 0 < (db.states.filter
          (fun r => r.metadata_id == p.1 && r.last_changed_ts == lc)).length :=
        List.length_pos.mpr (List.ne_nil_of_mem hmem)
      rw [hcr] at hcount ⊢
      omega
    | false =>
      rw [backfill_state_inserts_existing he hst hf hany] at hrun1
      simp only [Prod.mk.injEq] at hrun1
      obtain ⟨hdb1, -⟩ := hrun1
      subst hdb1
      have hany2 : (db.states ++ [bfRow p.1 st lc (lu.getD lc)]).any
          (fun r => r.metadata_id == p.1 && r.last_changed_ts == lc) = true :=
        List.any_eq_true.mpr ⟨_, List.mem_append_right _ (List.mem_singleton_self _),
          by simp [bfRow]⟩
      refine ⟨backfill_state_skip_of_exists he hst2 hf hany2, ?_⟩
      have hfilt : db.states.filter
          (fun r => r.metadata_id == p.1 && r.last_changed_ts == lc) = [] := by
        rw [List.filter_eq_nil_iff]
        intro r hr
        exact List.any_eq_false.mp hany r hr
      have h1 : countReadings
          ({ db with states := db.states ++ [bfRow p.1 st lc (lu.getD lc)] } : DB)
            e lc
          = ((db.states ++ [bfRow p.1 st lc (lu.getD lc)]).filter
              (fun r => r.metadata_id == p.1 && r.last_changed_ts == lc)).length := by
        show (match db.states_meta.find? (fun q => q.2 == e) with
              | some q => ((db.states ++ [bfRow p.1 st lc (lu.getD lc)]).filter
                  (fun (r : StateRow) => r.metadata_id == q.1 && r.last_changed_ts == lc)).length
              | none => 0) = _
        rw [hf]
      rw [h1, List.filter_append, hfilt]
      simp [bfRow]

/-- Witness for C3 on `egDB`: record "4.0" at t=7200, then try again. -/
theorem backfill_state_duplicate_skip_witness :
    (("sensor.energy" : String) ≠ "" ∧ ("4.0" : String) ≠ "" ∧
     ("4.5" : String) ≠ "" ∧
     (∀ r ∈ egDB.states, r.metadata_id ≠ egDB.next_states_meta_id) ∧
     countReadings egDB "sensor.energy" 7200 ≤ 1 ∧
     backfill_state (some "sensor.energy") (some "4.0") (some 7200) none egDB
       = (egBF, .success, 200)) ∧
    (backfill_state (some "sensor.energy") (some "4.5") (some 7200) none egBF
       = (egBF, .skipped "duplicate", 200) ∧
     countReadings egBF "sensor.energy" 7200 = 1) :=
  ⟨⟨by decide, by decide, by decide, by decide, by decide, by decide⟩,
   backfill_state_duplicate_skip "sensor.energy" "4.0" "4.5" 7200 none none
     egDB egBF .success 200 (by decide) (by decide) (by decide) (by decide)
     (by decide) (by decide)⟩

/-! ## Claim C8: storage errors abort without partial writes -/

theorem tick_none (msg : String) (k : Nat) : tick none msg k = .ok (k + 1) := rfl

theorem tick_cases (f : Nat) (msg : String) (k : Nat) :
    tick (some f) msg k = .error msg ∨ tick (some f) msg k = .ok (k + 1) := by
  by_cases h : k = f
  · left
    simp [tick, h]
  · right
    simp [tick, h]

theorem clearTicks_none (msg : String) (clear : Bool) (k : Nat) :
    clearTicks none msg clear k = .ok (if clear then k + 2 else k) := by
  cases clear <;> rfl

theorem clearTicks_cases (f : Nat) (msg : String) (clear : Bool) (k : Nat) :
    clearTicks (some f) msg clear k = .error msg
    ∨ clearTicks (some f) msg clear k = .ok (if clear then k + 2 else k) := by
  cases clear
  · right
    rfl
  · rcases tick_cases f msg k with h1 | h1
    · left
      simp [clearTicks, h1]
    · rcases tick_cases f msg (k + 1) with h2 | h2
      · left
        simp [clearTicks, h1, h2]
      · right
        simp [clearTicks, h1, h2]

theorem pruneTick_none (msg : String) (clear : Bool) (k : Nat) :
    pruneTick none msg clear k = .ok (if clear then k else k + 1) := by
  cases clear <;> rfl

theorem pruneTick_cases (f : Nat) (msg : String) (clear : Bool) (k : Nat) :
    pruneTick (some f) msg clear k = .error msg
    ∨ pruneTick (some f) msg clear k = .ok (if clear then k else k + 1) := by
  cases clear
  · rcases tick_cases f msg k with h1 | h1
    · left
      simp [pruneTick, h1]
    · right
      simp [pruneTick, h1]
  · right
    rfl

theorem rateTick_none (msg : String) (falsy : Bool) (k : Nat) :
    rateTick none msg falsy k = .ok (if falsy then k + 1 else k) := by
  cases falsy <;> rfl

theorem rateTick_cases (f : Nat) (msg : String) (falsy : Bool) (k : Nat) :
    rateTick (some f) msg falsy k = .error msg
    ∨ rateTick (some f) msg falsy k = .ok (if falsy then k + 1 else k) := by
  cases falsy
  · right
    rfl
  · rcases tick_cases f msg k with h1 | h1
    · left
      simp [rateTick, h1]
    · right
      simp [rateTick, h1]

theorem upsertHoursM_none (msg : String) (sid : Nat) (d : List (Int × ℚ)) :
    ∀ (hs : List Int) (tbl : List StatRow) (ins upd : Nat) (cum : ℚ) (k : Nat),
      upsertHoursM none msg sid d hs tbl ins upd cum k
        = .ok (withK (upsertHours sid d hs tbl ins upd cum) (k + 2 * hs.length))
  | [], tbl, ins, upd, cum, k => by simp [upsertHoursM, upsertHours, withK]
  | h :: hs, tbl, ins, upd, cum, k => by
    simp only [upsertHoursM, tick]
    by_cases hc : tbl.any (fun r => keyMatch r sid h) = true
    · rw [if_pos hc, upsertHours, if_pos hc]
      have h4 : k + 2 * (h :: hs).length = (k + 2) + 2 * hs.length := by
        simp only [List.length_cons]
        ring
      rw [h4]
      exact upsertHoursM_none msg sid d hs _ ins (upd + 1) _ (k + 2)
    · rw [if_neg hc, upsertHours, if_neg hc]
      have h4 : k + 2 * (h :: hs).length = (k + 2) + 2 * hs.length := by
        simp only [List.length_cons]
        ring
      rw [h4]
      exact upsertHoursM_none msg sid d hs _ (ins + 1) upd _ (k + 2)

theorem upsertHoursM_fault (f : Nat) (msg : String) (sid : Nat) (d : List (Int × ℚ)) :
    ∀ (hs : List Int) (tbl : List StatRow) (ins upd : Nat) (cum : ℚ) (k : Nat),
      upsertHoursM (some f) msg sid d hs tbl ins upd cum k = .error msg
      ∨ upsertHoursM (some f) msg sid d hs tbl ins upd cum k
          = .ok (withK (upsertHours sid d hs tbl ins upd cum) (k + 2 * hs.length))
  | [], tbl, ins, upd, cum, k => by
    right
    simp [upsertHoursM, upsertHours, withK]
  | h :: hs, tbl, ins, upd, cum, k => by
    rw [upsertHoursM]
    rcases tick_cases f msg k with h1 | h1 <;> rw [h1]
    · left
      rfl
    · simp only []
      by_cases hc : tbl.any (fun r => keyMatch r sid h) = true
      · rw [if_pos hc]
        rcases tick_cases f msg (k + 1) with h2 | h2 <;> rw [h2]
        · left
          rfl
        · simp only []
          rw [upsertHours, if_pos hc]
          have h4 : k + 2 * (h :: hs).length = (k + 2) + 2 * hs.length := by
            simp only [List.length_cons]
            ring
          rw [h4]
          exact upsertHoursM_fault f msg sid d hs _ ins (upd + 1) _ (k + 2)
      · rw [if_neg hc]
        rcases tick_cases f msg (k + 1) with h2 | h2 <;> rw [h2]
        · left
          rfl
        · simp only []
          rw [upsertHours, if_neg hc]
          have h4 : k + 2 * (h :: hs).length = (k + 2) + 2 * hs.length := by
            simp only [List.length_cons]
            ring
          rw [h4]
          exact upsertHoursM_fault f msg sid d hs _ (ins + 1) upd _ (k + 2)

theorem costLoopM_none (msg : String) (cid : Nat) (rate : ℚ) :
    ∀ (rows : List (Int × Option ℚ)) (tbl : List StatRow) (ins upd : Nat)
      (cum : ℚ) (k : Nat),
      costLoopM none msg cid rate rows tbl ins upd cum k
        = .ok (withK (costLoop cid rate rows tbl ins upd cum)
            (k + 2 * (valuedKeys rows).length))
  | [], tbl, ins, upd, cum, k => by simp [costLoopM, costLoop, withK, valuedKeys]
  | (t0, none) :: rest, tbl, ins, upd, cum, k => by
    rw [costLoopM, costLoop]
    have h4 : k + 2 * (valuedKeys ((t0, (none : Option ℚ)) :: rest)).length
        = k + 2 * (valuedKeys rest).length := by
      simp [valuedKeys, List.filterMap_cons]
    rw [h4]
    exact costLoopM_none msg cid rate rest tbl ins upd cum k
  | (t0, some v0) :: rest, tbl, ins, upd, cum, k => by
    simp only [costLoopM, tick]
    by_cases hc : tbl.any (fun r => keyMatch r cid t0) = true
    · rw [if_pos hc, costLoop, if_pos hc]
      have h4 : k + 2 * (valuedKeys ((t0, some v0) :: rest)).length
          = (k + 2) + 2 * (valuedKeys rest).length := by
        simp only [valuedKeys, List.filterMap_cons]
        simp only [List.length_cons]
        ring
      rw [h4]
      exact costLoopM_none msg cid rate rest _ ins (upd + 1) _ (k + 2)
    · rw [if_neg hc, costLoop, if_neg hc]
      have h4 : k + 2 * (valuedKeys ((t0, some v0) :: rest)).length
          = (k + 2) + 2 * (valuedKeys rest).length := by
        simp only [valuedKeys, List.filterMap_cons]
        simp only [List.length_cons]
        ring
      rw [h4]
      exact costLoopM_none msg cid rate rest _ (ins + 1) upd _ (k + 2)

theorem costLoopM_fault (f : Nat) (msg : String) (cid : Nat) (rate : ℚ) :
    ∀ (rows : List (Int × Option ℚ)) (tbl : List StatRow) (ins upd : Nat)
      (cum : ℚ) (k : Nat),
      costLoopM (some f) msg cid rate rows tbl ins upd cum k = .error msg
      ∨ costLoopM (some f) msg cid rate rows tbl ins upd cum k
          = .ok (withK (costLoop cid rate rows tbl ins upd cum)
              (k + 2 * (valuedKeys rows).length))
  | [], tbl, ins, upd, cum, k => by
    right
    simp [costLoopM, costLoop, withK, valuedKeys]
  | (t0, none) :: rest, tbl, ins, upd, cum, k => by
    rw [costLoopM, costLoop]
    have h4 : k + 2 * (valuedKeys ((t0, (none : Option ℚ)) :: rest)).length
        = k + 2 * (valuedKeys rest).length := by
      simp [valuedKeys, List.filterMap_cons]
    rw [h4]
    exact costLoopM_fault f msg cid rate rest tbl ins upd cum k
  | (t0, some v0) :: rest, tbl, ins, upd, cum, k => by
    rw [costLoopM]
    rcases tick_cases f msg k with h1 | h1 <;> rw [h1]
    · left
      rfl
    · simp only []
      by_cases hc : tbl.any (fun r => keyMatch r cid t0) = true
      · rw [if_pos hc]
        rcases tick_cases f msg (k + 1) with h2 | h2 <;> rw [h2]
        · left
          rfl
        · simp only []
          rw [costLoop, if_pos hc]
          have h4 : k + 2 * (valuedKeys ((t0, some v0) :: rest)).length
              = (k + 2) + 2 * (valuedKeys rest).length := by
            simp only [valuedKeys, List.filterMap_cons]
            simp only [List.length_cons]
            ring
          rw [h4]
          exact costLoopM_fault f msg cid rate rest _ ins (upd + 1) _ (k + 2)
      · rw [if_neg hc]
        rcases tick_cases f msg (k + 1) with h2 | h2 <;> rw [h2]
        · left
          rfl
        · simp only []
          rw [costLoop, if_neg hc]
          have h4 : k + 2 * (valuedKeys ((t0, some v0) :: rest)).length
              = (k + 2) + 2 * (valuedKeys rest).length := by
            simp only [valuedKeys, List.filterMap_cons]
            simp only [List.length_cons]
            ring
          rw [h4]
          exact costLoopM_fault f msg cid rate rest _ (ins + 1) upd _ (k + 2)

theorem gsCoreM_none (msg : String) (sid mid : Nat) (clear : Bool) (db : DB)
    (k : Nat) :
    gsCoreM none msg sid mid clear db k = .ok (gsCore sid mid clear db) := by
  simp only [gsCoreM, gsCore, tick]
  rw [clearTicks_none]
  simp only []
  by_cases hs : filteredStates db mid = []
  · rw [if_pos hs, if_pos hs]
  · rw [if_neg hs, if_neg hs]
    cases hb : buildHourly (filteredStates db mid) [] with
    | none => rfl
    | some d =>
      simp only []
      cases hh : hoursOf d with
      | nil => rfl
      | cons h0 hrest =>
        simp only []
        rw [pruneTick_none]
        simp only []
        rw [upsertHoursM_none]
        simp [withK]

theorem gsCoreM_fault (f : Nat) (msg : String) (sid mid : Nat) (clear : Bool)
    (db : DB) (k : Nat) :
    gsCoreM (some f) msg sid mid clear db k = .error msg
    ∨ gsCoreM (some f) msg sid mid clear db k = .ok (gsCore sid mid clear db) := by
  simp only [gsCoreM, gsCore]
  rcases clearTicks_cases f msg clear k with h1 | h1 <;> rw [h1]
  · left
    rfl
  · simp only []
    generalize (if clear then k + 2 else k) = k4
    rcases tick_cases f msg k4 with h2 | h2 <;> rw [h2]
    · left
      rfl
    · simp only []
      by_cases hs : filteredStates db mid = []
      · right
        rw [if_pos hs, if_pos hs]
      · rw [if_neg hs, if_neg hs]
        cases hb : buildHourly (filteredStates db mid) [] with
        | none =>
          right
          rfl
        | some d =>
          simp only []
          cases hh : hoursOf d with
          | nil =>
            right
            rfl
          | cons h0 hrest =>
            simp only []
            rcases pruneTick_cases f msg clear (k4 + 1) with h3 | h3 <;> rw [h3]
            · left
              rfl
            · simp only []
              generalize (if clear then k4 + 1 else k4 + 1 + 1) = k6
              rcases upsertHoursM_fault f msg sid d (h0 :: hrest)
                  (gsPruned sid clear db h0 (h0 :: hrest)).1 0 0 0 k6 with h4 | h4
                <;> rw [h4]
              · left
                rfl
              · simp only [withK]
                rcases tick_cases f msg (k6 + 2 * (h0 :: hrest).length)
                    with h5 | h5 <;> rw [h5]
                · left
                  rfl
                · right
                  rfl

theorem gcsCoreM_none (msg : String) (eid cid : Nat) (rate : RateParam)
    (clear : Bool) (db : DB) (k : Nat) :
    gcsCoreM none msg eid cid rate clear db k
      = .ok (gcsCore eid cid rate clear db) := by
  simp only [gcsCoreM, gcsCore, tick]
  rw [clearTicks_none]
  simp only []
  rw [rateTick_none]
  simp only []
  cases hro : rateOf eid cid rate (stagedStats cid clear db) with
  | error pc => rfl
  | ok rateV =>
    simp only []
    cases hes : energyRows (stagedStats cid clear db) eid with
    | nil => rfl
    | cons e0 erest =>
      obtain ⟨t0, v0⟩ := e0
      simp only []
      rw [pruneTick_none]
      simp only []
      rw [costLoopM_none]
      simp [withK]

theorem gcsCoreM_fault (f : Nat) (msg : String) (eid cid : Nat) (rate : RateParam)
    (clear : Bool) (db : DB) (k : Nat) :
    gcsCoreM (some f) msg eid cid rate clear db k = .error msg
    ∨ gcsCoreM (some f) msg eid cid rate clear db k
        = .ok (gcsCore eid cid rate clear db) := by
  simp only [gcsCoreM, gcsCore]
  rcases clearTicks_cases f msg clear k with h1 | h1 <;> rw [h1]
  · left
    rfl
  · simp only []
    generalize (if clear then k + 2 else k) = k4
    rcases rateTick_cases f msg (rateFalsy rate) k4 with h2 | h2 <;> rw [h2]
    · left
      rfl
    · simp only []
      generalize (if rateFalsy rate then k4 + 1 else k4) = k5
      cases hro : rateOf eid cid rate (stagedStats cid clear db) with
      | error pc =>
        right
        rfl
      | ok rateV =>
        simp only []
        rcases tick_cases f msg k5 with h3 | h3 <;> rw [h3]
        · left
          rfl
        · simp only []
          cases hes : energyRows (stagedStats cid clear db) eid with
          | nil =>
            right
            rfl
          | cons e0 erest =>
            obtain ⟨t0, v0⟩ := e0
            simp only []
            rcases pruneTick_cases f msg clear (k5 + 1) with h4 | h4 <;> rw [h4]
            · left
              rfl
            · simp only []
              generalize (if clear then k5 + 1 else k5 + 1 + 1) = k7
              rcases costLoopM_fault f msg cid rateV ((t0, v0) :: erest)
                  (gsPruned cid clear db t0 (((t0, v0) :: erest).map Prod.fst)).1
                  0 0 0 k7 with h5 | h5 <;> rw [h5]
              · left
                rfl
              · simp only [withK]
                rcases tick_cases f msg
                    (k7 + 2 * (valuedKeys ((t0, v0) :: erest)).length)
                    with h6 | h6 <;> rw [h6]
                · left
                  rfl
                · right
                  rfl

theorem bfCoreM_none (msg : String) (e st : String) (lc lu : Int) (db : DB)
    (k : Nat) :
    bfCoreM none msg e st lc lu db k
      = .ok (match db.states_meta.find? (fun p => p.2 == e) with
             | some p =>
               if db.states.any (fun r => r.metadata_id == p.1
                   && r.last_changed_ts == lc) then
                 (db, .skipped "duplicate", 200)
               else
                 ({ db with states := db.states ++ [bfRow p.1 st lc lu] },
                  .success, 200)
             | none =>
               if db.states.any (fun r => r.metadata_id == db.next_states_meta_id
                   && r.last_changed_ts == lc) then
                 (db, .skipped "duplicate", 200)
               else
                 ({ db with
                     states_meta := db.states_meta ++ [(db.next_states_meta_id, e)],
                     next_states_meta_id := db.next_states_meta_id + 1,
                     states := db.states ++ [bfRow db.next_states_meta_id st lc lu] },
                  .success, 200)) := by
  simp only [bfCoreM, tick]
  cases hf : db.states_meta.find? (fun p => p.2 == e) with
  | some p =>
    simp only []
    by_cases hc : db.states.any (fun r => r.metadata_id == p.1
        && r.last_changed_ts == lc) = true
    · rw [if_pos hc, if_pos hc]
    · rw [if_neg hc, if_neg hc]
  | none =>
    simp only []
    by_cases hc : db.states.any (fun r => r.metadata_id == db.next_states_meta_id
        && r.last_changed_ts == lc) = true
    · rw [if_pos hc, if_pos hc]
    · rw [if_neg hc, if_neg hc]

theorem bfCoreM_fault (f : Nat) (msg : String) (e st : String) (lc lu : Int)
    (db : DB) (k : Nat) :
    bfCoreM (some f) msg e st lc lu db k = .error msg
    ∨ bfCoreM (some f) msg e st lc lu db k = bfCoreM none msg e st lc lu db k := by
  rw [bfCoreM_none]
  simp only [bfCoreM]
  rcases tick_cases f msg k with h1 | h1 <;> rw [h1]
  · left
    rfl
  · simp only []
    cases hf : db.states_meta.find? (fun p => p.2 == e) with
    | some p =>
      simp only []
      rcases tick_cases f msg (k + 1) with h2 | h2 <;> rw [h2]
      · left
        rfl
      · simp only []
        by_cases hc : db.states.any (fun r => r.metadata_id == p.1
            && r.last_changed_ts == lc) = true
        · right
          rw [if_pos hc, if_pos hc]
        · rw [if_neg hc, if_neg hc]
          rcases tick_cases f msg (k + 2) with h3 | h3 <;> rw [h3]
          · left
            rfl
          · simp only []
            rcases tick_cases f msg (k + 3) with h4 | h4 <;> rw [h4]
            · left
              rfl
            · right
              rfl
    | none =>
      simp only []
      rcases tick_cases f msg (k + 1) with h2 | h2 <;> rw [h2]
      · left
        rfl
      · simp only []
        rcases tick_cases f msg (k + 2) with h3 | h3 <;> rw [h3]
        · left
          rfl
        · simp only []
          by_cases hc : db.states.any (fun r => r.metadata_id == db.next_states_meta_id
              && r.last_changed_ts == lc) = true
          · right
            rw [if_pos hc, if_pos hc]
          · rw [if_neg hc, if_neg hc]
            rcases tick_cases f msg (k + 3) with h4 | h4 <;> rw [h4]
            · left
              rfl
            · simp only []
              rcases tick_cases f msg (k + 4) with h5 | h5 <;> rw [h5]
              · left
                rfl
              · right
                rfl

theorem backfill_state_flt_none (msg : String) (eid st : Option String)
    (lc lu : Option Int) (db : DB) :
    backfill_state_flt none msg eid st lc lu db = backfill_state eid st lc lu db := by
  cases eid with
  | none => rfl
  | some e =>
    cases st with
    | none => rfl
    | some s =>
      cases lc with
      | none => rfl
      | some l =>
        simp only [backfill_state_flt, backfill_state]
        by_cases hp : e = "" ∨ s = ""
        · rw [if_pos hp, if_pos hp]
        · rw [if_neg hp, if_neg hp]
          rw [bfCoreM_none]
          simp only []
          cases hf : db.states_meta.find? (fun p => p.2 == e) with
          | some p =>
            simp only []
            by_cases hc : db.states.any (fun r => r.metadata_id == p.1
                && r.last_changed_ts == l) = true
            · rw [if_pos hc, if_pos hc]
            · rw [if_neg hc, if_neg hc]
              rfl
          | none =>
            simp only []
            by_cases hc : db.states.any (fun r => r.metadata_id == db.next_states_meta_id
                && r.last_changed_ts == l) = true
            · rw [if_pos hc, if_pos hc]
            · rw [if_neg hc, if_neg hc]
              rfl

theorem backfill_state_flt_fault (f : Nat) (msg : String) (eid st : Option String)
    (lc lu : Option Int) (db : DB) :
    backfill_state_flt (some f) msg eid st lc lu db = (db, .error msg, 500)
    ∨ backfill_state_flt (some f) msg eid st lc lu db
        = backfill_state eid st lc lu db := by
  cases eid with
  | none =>
    right
    rfl
  | some e =>
    cases st with
    | none =>
      right
      rfl
    | some s =>
      cases lc with
      | none =>
        right
        rfl
      | some l =>
        rw [← backfill_state_flt_none msg (some e) (some s) (some l) lu db]
        simp only [backfill_state_flt]
        by_cases hp : e = "" ∨ s = ""
        · right
          rw [if_pos hp, if_pos hp]
        · rw [if_neg hp, if_neg hp]
          rcases bfCoreM_fault f msg e s l (lu.getD l) db 0 with h1 | h1 <;> rw [h1]
          · left
            rfl
          · right
            rfl

theorem generate_statistics_flt_none (msg : String) (eid : Option String)
    (clear : Bool) (db : DB) :
    generate_statistics_flt none msg eid clear db
      = generate_statistics eid clear db := by
  simp only [generate_statistics_flt, generate_statistics, tick]
  by_cases hf : strFalsy eid = true
  · rw [if_pos hf, if_pos hf]
  · rw [if_neg hf, if_neg hf]
    cases hsid : statsMetaId db (eid.getD "") with
    | none => rfl
    | some sid =>
      simp only []
      cases hmid : statesMetaId db (eid.getD "") with
      | none => rfl
      | some mid =>
        simp only []
        rw [gsCoreM_none]

theorem generate_statistics_flt_fault (f : Nat) (msg : String)
    (eid : Option String) (clear : Bool) (db : DB) :
    generate_statistics_flt (some f) msg eid clear db = (db, .error msg, 500)
    ∨ generate_statistics_flt (some f) msg eid clear db
        = generate_statistics eid clear db := by
  simp only [generate_statistics_flt, generate_statistics]
  by_cases hf : strFalsy eid = true
  · right
    rw [if_pos hf, if_pos hf]
  · rw [if_neg hf, if_neg hf]
    rcases tick_cases f msg 0 with h1 | h1 <;> rw [h1]
    · left
      rfl
    · simp only []
      cases hsid : statsMetaId db (eid.getD "") with
      | none =>
        right
        rfl
      | some sid =>
        simp only []
        rcases tick_cases f msg 1 with h2 | h2 <;> rw [h2]
        · left
          rfl
        · simp only []
          cases hmid : statesMetaId db (eid.getD "") with
          | none =>
            right
            rfl
          | some mid =>
            simp only []
            rcases gsCoreM_fault f msg sid mid clear db 2 with h3 | h3 <;> rw [h3]
            · left
              rfl
            · right
              rfl

theorem generate_cost_statistics_flt_none (msg : String) (ee ce : Option String)
    (rate : RateParam) (clear : Bool) (db : DB) :
    generate_cost_statistics_flt none msg ee ce rate clear db
      = generate_cost_statistics ee ce rate clear db := by
  simp only [generate_cost_statistics_flt, generate_cost_statistics, tick]
  by_cases hf : (strFalsy ee || strFalsy ce) = true
  · rw [if_pos hf, if_pos hf]
  · rw [if_neg hf, if_neg hf]
    cases heid : statsMetaId db (ee.getD "") with
    | none => rfl
    | some eid =>
      simp only []
      cases hcid : statsMetaId db (ce.getD "") with
      | none => rfl
      | some cid =>
        simp only []
        rw [gcsCoreM_none]

theorem generate_cost_statistics_flt_fault (f : Nat) (msg : String)
    (ee ce : Option String) (rate : RateParam) (clear : Bool) (db : DB) :
    generate_cost_statistics_flt (some f) msg ee ce rate clear db
        = (db, .error msg, 500)
    ∨ generate_cost_statistics_flt (some f) msg ee ce rate clear db
        = generate_cost_statistics ee ce rate clear db := by
  simp only [generate_cost_statistics_flt, generate_cost_statistics]
  by_cases hf : (strFalsy ee || strFalsy ce) = true
  · right
    rw [if_pos hf, if_pos hf]
  · rw [if_neg hf, if_neg hf]
    rcases tick_cases f msg 0 with h1 | h1 <;> rw [h1]
    · left
      rfl
    · simp only []
      cases heid : statsMetaId db (ee.getD "") with
      | none =>
        right
        rfl
      | some eid =>
        simp only []
        rcases tick_cases f msg 1 with h2 | h2 <;> rw [h2]
        · left
          rfl
        · simp only []
          cases hcid : statsMetaId db (ce.getD "") with
          | none =>
            right
            rfl
          | some cid =>
            simp only []
            rcases gcsCoreM_fault f msg eid cid rate clear db 2 with h3 | h3
              <;> rw [h3]
            · left
              rfl
            · right
              rfl

/-- C8: under fault injection of a storage error at an arbitrary operation
of any of the three handlers, either the fault is never reached — and the
instrumented handler returns exactly what the pure handler returns — or the
raised error aborts the remaining steps: the handler returns the store
unchanged (no write of the invocation is persisted, since the transaction
was never committed, and rows already committed in the incoming store are
untouched) together with a 500 status carrying the storage error's message;
and with no fault injected the instrumented handlers agree with the pure
ones (nothing is retried: one pass, one result). -/
theorem storage_error_aborts_cleanly :
    (∀ (msg : String) (eid st : Option String) (lc lu : Option Int) (db : DB),
      backfill_state_flt none msg eid st lc lu db
        = backfill_state eid st lc lu db) ∧
    (∀ (f : Nat) (msg : String) (eid st : Option String) (lc lu : Option Int)
        (db : DB),
      backfill_state_flt (some f) msg eid st lc lu db = (db, .error msg, 500)
      ∨ backfill_state_flt (some f) msg eid st lc lu db
          = backfill_state eid st lc lu db) ∧
    (∀ (msg : String) (eid : Option String) (clear : Bool) (db : DB),
      generate_statistics_flt none msg eid clear db
        = generate_statistics eid clear db) ∧
    (∀ (f : Nat) (msg : String) (eid : Option String) (clear : Bool) (db : DB),
      generate_statistics_flt (some f) msg eid clear db = (db, .error msg, 500)
      ∨ generate_statistics_flt (some f) msg eid clear db
          = generate_statistics eid clear db) ∧
    (∀ (msg : String) (ee ce : Option String) (rate : RateParam) (clear : Bool)
        (db : DB),
      generate_cost_statistics_flt none msg ee ce rate clear db
        = generate_cost_statistics ee ce rate clear db) ∧
    (∀ (f : Nat) (msg : String) (ee ce : Option String) (rate : RateParam)
        (clear : Bool) (db : DB),
      generate_cost_statistics_flt (some f) msg ee ce rate clear db
          = (db, .error msg, 500)
      ∨ generate_cost_statistics_flt (some f) msg ee ce rate clear db
          = generate_cost_statistics ee ce rate clear db) :=
  ⟨backfill_state_flt_none, backfill_state_flt_fault,
   generate_statistics_flt_none, generate_statistics_flt_fault,
   generate_cost_statistics_flt_none, generate_cost_statistics_flt_fault⟩

end Gridscraper
